import Mathlib

/-!
# Verification of the `meta` temporal field decoder (`time.go`)

This file is a shallow embedding, in Lean 4, of the temporal-field decoding
pipeline of the `meta` package (`src/time.go`): calendar-aware rounding,
time-expression resolution, format-driven parsing, and tolerance-aware
range validation.

Conventions of the embedding:

* An *instant* (Go `time.Time` in UTC) is modelled as an `Int`: the number of
  nanoseconds since 1970-01-01T00:00:00 UTC.  All decode paths in `time.go`
  operate on instants through component extraction (`Year()`, `Month()`, ...)
  and reassembly (`time.Date`), both of which are modelled below on the
  proleptic Gregorian calendar, with the floor-division normalisation that
  Go's `time.Date` performs on out-of-range components.
* Go's `time.Now()` and the standard library's `time.Parse` are the only
  effectful/external inputs of the pipeline; they are threaded explicitly as
  a `TimeEnv` value (`now` is the sampled wall clock, `parseFormat` is the
  layout-driven parser `time.Parse`, returning `none` where Go returns an
  error).
* Mutating methods on `*Time` are modelled as pure state transformers
  `Time → ... → Time × _`.
-/

namespace MetaTime

/-! ## Nanosecond unit constants (Go `time.Duration` values) -/

def nsPerSecond : Int := 1000000000
def nsPerMinute : Int := 60000000000
def nsPerHour : Int := 3600000000000
def nsPerDay : Int := 86400000000000

example : nsPerMinute = 60 * nsPerSecond := rfl
example : nsPerHour = 60 * nsPerMinute := rfl
example : nsPerDay = 24 * nsPerHour := rfl

/-- `TimeComparisonTolerance = time.Millisecond * 250` (`time.go` line 95). -/
def TimeComparisonTolerance : Int := 250000000

/-! ## Proleptic Gregorian calendar (model of Go's `time` package date math)

`daysFromCivil y m d` is the number of days from 1970-01-01 to the civil date
`(y, m, d)` (month in 1..12), and `civilFromDays` is its inverse.  These model
the (external, `time` standard library) conversions Go performs between an
absolute instant and broken-down calendar components.  The day→date direction
uses the Euclidean-affine decomposition of the 400-year era (146097 days):
century via `(4·doe+3)/146097`, year-of-century via `(4·nc+3)/1461`. -/

/-- Days from the start of a 400-year era to the start of year-of-era `yoe`. -/
def daysBeforeYoe (yoe : Int) : Int := 365 * yoe + yoe.ediv 4 - yoe.ediv 100

/-- Year of era (0..399) containing day-of-era `doe` (0..146096). -/
def yoeOfDoe (doe : Int) : Int :=
  100 * ((4 * doe + 3).ediv 146097) +
    (4 * (((4 * doe + 3).emod 146097).ediv 4) + 3).ediv 1461

/-- March-based day of year (0..365) of day-of-era `doe`. -/
def doyOfDoe (doe : Int) : Int :=
  ((4 * (((4 * doe + 3).emod 146097).ediv 4) + 3).emod 1461).ediv 4

/-- March-based month index (0 = March, ..., 11 = February) of a day of year. -/
def mpOfDoy (doy : Int) : Int := (5 * doy + 2).ediv 153

/-- Day of month (1-based) of a March-based day of year. -/
def dayOfDoy (doy : Int) : Int := doy - (153 * mpOfDoy doy + 2).ediv 5 + 1

/-- Civil month (1..12) of a March-based month index. -/
def monthOfMp (mp : Int) : Int := if mp < 10 then mp + 3 else mp - 9

/-- March-based month index of a civil month (inverse of `monthOfMp`). -/
def marchShift (m : Int) : Int := if m > 2 then m - 3 else m + 9

/-- The year shifted so that March 1 starts the year (January and February
belong to the preceding shifted year). -/
def yShift (y m : Int) : Int := y - (if m ≤ 2 then 1 else 0)

def daysFromCivil (y m d : Int) : Int :=
  (yShift y m).ediv 400 * 146097 +
    daysBeforeYoe (yShift y m - (yShift y m).ediv 400 * 400) +
    ((153 * marchShift m + 2).ediv 5 + d - 1) - 719468

/-- Era (400-year block) and day-of-era of an absolute day number. -/
def eraOf (z : Int) : Int := (z + 719468).ediv 146097
def doeOf (z : Int) : Int := (z + 719468).emod 146097

def doyOf (z : Int) : Int := doyOfDoe (doeOf z)
def civilMonthOf (z : Int) : Int := monthOfMp (mpOfDoy (doyOf z))
def civilDayOf (z : Int) : Int := dayOfDoy (doyOf z)
def civilYearOf (z : Int) : Int :=
  eraOf z * 400 + yoeOfDoe (doeOf z) + (if civilMonthOf z ≤ 2 then 1 else 0)

def civilFromDays (z : Int) : Int × Int × Int :=
  (civilYearOf z, civilMonthOf z, civilDayOf z)

example : daysFromCivil 1970 1 1 = 0 := by decide
example : civilFromDays 0 = (1970, 1, 1) := by decide
example : daysFromCivil 2024 1 1 = 19723 := by decide
example : civilFromDays 19723 = (2024, 1, 1) := by decide
example : civilFromDays 19722 = (2023, 12, 31) := by decide
example : daysFromCivil 2024 2 29 = 19782 := by decide
example : civilFromDays 19782 = (2024, 2, 29) := by decide
example : daysFromCivil 1 1 1 = -719162 := by decide
example : civilFromDays (-719162) = (1, 1, 1) := by decide

/-! ## Instants: construction (`time.Date` in UTC) and component extraction -/

/-- Model of Go `time.Date(year, month, day, hour, min, sec, nsec, time.UTC)`:
the month is floor-normalised into 1..12 (shifting the year), and all other
components combine linearly (Go's `norm` rebalancing preserves the total). -/
def mkInstant (year month day hour minute second nanosecond : Int) : Int :=
  daysFromCivil (year + (month - 1).ediv 12) ((month - 1).emod 12 + 1) 1 * nsPerDay +
    (day - 1) * nsPerDay + hour * nsPerHour + minute * nsPerMinute +
    second * nsPerSecond + nanosecond

def tDays (t : Int) : Int := t.ediv nsPerDay
def tNsOfDay (t : Int) : Int := t.emod nsPerDay

def tYear (t : Int) : Int := civilYearOf (tDays t)
def tMonth (t : Int) : Int := civilMonthOf (tDays t)
def tDay (t : Int) : Int := civilDayOf (tDays t)
def tHour (t : Int) : Int := (tNsOfDay t).ediv nsPerHour
def tMinute (t : Int) : Int := ((tNsOfDay t).emod nsPerHour).ediv nsPerMinute
def tSecond (t : Int) : Int := ((tNsOfDay t).emod nsPerMinute).ediv nsPerSecond
def tNanosecond (t : Int) : Int := (tNsOfDay t).emod nsPerSecond

/-- Go `time.Time.Weekday()`: 0 = Sunday, ..., 6 = Saturday.
1970-01-01 (day 0) was a Thursday (= 4). -/
def tWeekday (t : Int) : Int := (tDays t + 4).emod 7

/-- Go `time.Time.YearDay()`: 1-based ordinal day within the year. -/
def tYearDay (t : Int) : Int := tDays t - daysFromCivil (tYear t) 1 1 + 1

/-- Go `time.Time.AddDate(years, months, days)` (in UTC): extract components,
offset, and rebuild through `time.Date`'s normalisation. -/
def addDate (t years months days : Int) : Int :=
  mkInstant (tYear t + years) (tMonth t + months) (tDay t + days)
    (tHour t) (tMinute t) (tSecond t) (tNanosecond t)

example : mkInstant 2024 1 15 14 30 45 0 = 1705329045000000000 := by decide
example : tYear 1705329045000000000 = 2024 := by decide
example : tMonth 1705329045000000000 = 1 := by decide
example : tDay 1705329045000000000 = 15 := by decide
example : tHour 1705329045000000000 = 14 := by decide
example : tMinute 1705329045000000000 = 30 := by decide
example : tSecond 1705329045000000000 = 45 := by decide
example : tWeekday (mkInstant 2024 1 15 0 0 0 0) = 1 := by decide
example : mkInstant 2024 1 32 0 0 0 0 = mkInstant 2024 2 1 0 0 0 0 := by decide
example : mkInstant 2024 13 1 0 0 0 0 = mkInstant 2025 1 1 0 0 0 0 := by decide
example : addDate (mkInstant 2024 1 31 0 0 0 0) 0 1 0 = mkInstant 2024 3 2 0 0 0 0 := by
  decide

/-! ## Calendar round-trip lemmas -/

theorem ediv_emod_decomp (a b : Int) (hb : 0 < b) :
    b * a.ediv b + a.emod b = a ∧ 0 ≤ a.emod b ∧ a.emod b < b :=
  ⟨Int.ediv_add_emod a b, Int.emod_nonneg a (by omega), Int.emod_lt_of_pos a hb⟩

theorem eaf_century (a b rc c s : Int)
    (h1 : 4 * a + 3 = 146097 * b + rc) (h1a : 0 ≤ rc) (h1b : rc < 146097)
    (h2 : rc = 4 * c + s) (h2a : 0 ≤ s) (h2b : s < 4)
    (h0 : 0 ≤ a) (h0' : a ≤ 146096) :
    a = 36524 * b + c ∧ 0 ≤ b ∧ b ≤ 3 ∧ 0 ≤ c ∧ c ≤ 36524 := by
  omega

theorem eaf_year (c zc r3 d t u v : Int)
    (h3 : 4 * c + 3 = 1461 * zc + r3) (h3a : 0 ≤ r3) (h3b : r3 < 1461)
    (h4 : r3 = 4 * d + t) (h4a : 0 ≤ t) (h4b : t < 4)
    (h5 : zc = 4 * u + v) (h5a : 0 ≤ v) (h5b : v < 4)
    (hc : 0 ≤ c) (hc' : c ≤ 36524) :
    c = 1461 * u + 365 * v + d ∧ 0 ≤ zc ∧ zc ≤ 99 ∧ 0 ≤ d ∧ d ≤ 365 := by
  omega

theorem eaf_yoe_div (b zc u v yq w yc x : Int)
    (h5 : zc = 4 * u + v) (h5a : 0 ≤ v) (h5b : v < 4)
    (h6 : 100 * b + zc = 4 * yq + w) (h6a : 0 ≤ w) (h6b : w < 4)
    (h7 : 100 * b + zc = 100 * yc + x) (h7a : 0 ≤ x) (h7b : x < 100)
    (hz : 0 ≤ zc) (hz' : zc ≤ 99) :
    yq = 25 * b + u ∧ yc = b := by
  omega

/-- Day-of-era decomposition: `daysBeforeYoe (yoeOfDoe doe) + doyOfDoe doe = doe`,
with the year of era in 0..399 and the day of year in 0..365. -/
theorem yoe_doy_spec (doe : Int) (h0 : 0 ≤ doe) (h1 : doe ≤ 146096) :
    daysBeforeYoe (yoeOfDoe doe) + doyOfDoe doe = doe ∧
    0 ≤ yoeOfDoe doe ∧ yoeOfDoe doe ≤ 399 ∧
    0 ≤ doyOfDoe doe ∧ doyOfDoe doe ≤ 365 := by
  have e1 := ediv_emod_decomp (4 * doe + 3) 146097 (by norm_num)
  have e2 := ediv_emod_decomp ((4 * doe + 3).emod 146097) 4 (by norm_num)
  obtain ⟨hcent, hb0, hb3, hc0, hc2⟩ := eaf_century doe ((4 * doe + 3).ediv 146097)
    ((4 * doe + 3).emod 146097) (((4 * doe + 3).emod 146097).ediv 4)
    (((4 * doe + 3).emod 146097).emod 4)
    (by omega) e1.2.1 e1.2.2 (by omega) e2.2.1 e2.2.2 h0 h1
  have e3 := ediv_emod_decomp (4 * (((4 * doe + 3).emod 146097).ediv 4) + 3) 1461
    (by norm_num)
  have e4 := ediv_emod_decomp
    ((4 * (((4 * doe + 3).emod 146097).ediv 4) + 3).emod 1461) 4 (by norm_num)
  have e5 := ediv_emod_decomp
    ((4 * (((4 * doe + 3).emod 146097).ediv 4) + 3).ediv 1461) 4 (by norm_num)
  obtain ⟨hyr, hz0, hz99, hd0, hd2⟩ := eaf_year (((4 * doe + 3).emod 146097).ediv 4)
    ((4 * (((4 * doe + 3).emod 146097).ediv 4) + 3).ediv 1461)
    ((4 * (((4 * doe + 3).emod 146097).ediv 4) + 3).emod 1461)
    (((4 * (((4 * doe + 3).emod 146097).ediv 4) + 3).emod 1461).ediv 4)
    (((4 * (((4 * doe + 3).emod 146097).ediv 4) + 3).emod 1461).emod 4)
    (((4 * (((4 * doe + 3).emod 146097).ediv 4) + 3).ediv 1461).ediv 4)
    (((4 * (((4 * doe + 3).emod 146097).ediv 4) + 3).ediv 1461).emod 4)
    (by omega) e3.2.1 e3.2.2 (by omega) e4.2.1 e4.2.2 (by omega) e5.2.1 e5.2.2 hc0 hc2
  have e6 := ediv_emod_decomp (yoeOfDoe doe) 4 (by norm_num)
  have e7 := ediv_emod_decomp (yoeOfDoe doe) 100 (by norm_num)
  have hyoe : yoeOfDoe doe = 100 * ((4 * doe + 3).ediv 146097) +
      (4 * (((4 * doe + 3).emod 146097).ediv 4) + 3).ediv 1461 := rfl
  obtain ⟨hyq, hyc⟩ := eaf_yoe_div ((4 * doe + 3).ediv 146097)
    ((4 * (((4 * doe + 3).emod 146097).ediv 4) + 3).ediv 1461)
    (((4 * (((4 * doe + 3).emod 146097).ediv 4) + 3).ediv 1461).ediv 4)
    (((4 * (((4 * doe + 3).emod 146097).ediv 4) + 3).ediv 1461).emod 4)
    ((yoeOfDoe doe).ediv 4) ((yoeOfDoe doe).emod 4)
    ((yoeOfDoe doe).ediv 100) ((yoeOfDoe doe).emod 100)
    (by omega) e5.2.1 e5.2.2 (by omega) e6.2.1 e6.2.2 (by omega) e7.2.1 e7.2.2 hz0 hz99
  unfold daysBeforeYoe doyOfDoe
  omega

theorem eaf_inv_core (Y D a α β B S γ δ q1 r1 q2 r2 q3 r3 q4 r4 : Int)
    (hY0 : 0 ≤ Y) (hY1 : Y ≤ 399) (hD0 : 0 ≤ D) (hD1 : D ≤ 364)
    (ha : a = 365 * Y + α - B + D)
    (h4 : Y = 4 * α + β) (hβ0 : 0 ≤ β) (hβ1 : β < 4)
    (h100 : Y = 100 * B + S) (hS0 : 0 ≤ S) (hS1 : S < 100)
    (hγ : S = 4 * γ + δ) (hδ0 : 0 ≤ δ) (hδ1 : δ < 4)
    (hq1 : 4 * a + 3 = 146097 * q1 + r1) (hr1a : 0 ≤ r1) (hr1b : r1 < 146097)
    (hq2 : r1 = 4 * q2 + r2) (hr2a : 0 ≤ r2) (hr2b : r2 < 4)
    (hq3 : 4 * q2 + 3 = 1461 * q3 + r3) (hr3a : 0 ≤ r3) (hr3b : r3 < 1461)
    (hq4 : r3 = 4 * q4 + r4) (hr4a : 0 ≤ r4) (hr4b : r4 < 4) :
    100 * q1 + q3 = Y ∧ q4 = D := by
  have hB : 0 ≤ B ∧ B ≤ 3 := by omega
  have hβδ : β = δ := by omega
  have key1 : q1 = B ∧ r1 = 1460 * S + 4 * γ + 4 * D + 3 - B := by omega
  have key2 : q2 = 365 * S + γ + D ∧ r2 = 3 - B := by omega
  have key3 : q3 = S ∧ r3 = 4 * D + 3 - δ := by omega
  omega

/-- Inverse direction: decomposing `daysBeforeYoe Y + D` recovers the year of
era `Y` and the day of year `D` (for `D ≤ 364`, i.e. any day strictly inside
the year, which covers every day of every month). -/
theorem eaf_inv (Y D : Int) (hY0 : 0 ≤ Y) (hY1 : Y ≤ 399) (hD0 : 0 ≤ D) (hD1 : D ≤ 364) :
    yoeOfDoe (daysBeforeYoe Y + D) = Y ∧ doyOfDoe (daysBeforeYoe Y + D) = D := by
  have e4 := ediv_emod_decomp Y 4 (by norm_num)
  have e100 := ediv_emod_decomp Y 100 (by norm_num)
  have eS := ediv_emod_decomp (Y.emod 100) 4 (by norm_num)
  have d1 := ediv_emod_decomp (4 * (daysBeforeYoe Y + D) + 3) 146097 (by norm_num)
  have d2 := ediv_emod_decomp ((4 * (daysBeforeYoe Y + D) + 3).emod 146097) 4 (by norm_num)
  have d3 := ediv_emod_decomp
    (4 * (((4 * (daysBeforeYoe Y + D) + 3).emod 146097).ediv 4) + 3) 1461 (by norm_num)
  have d4 := ediv_emod_decomp
    ((4 * (((4 * (daysBeforeYoe Y + D) + 3).emod 146097).ediv 4) + 3).emod 1461) 4
    (by norm_num)
  have ha : daysBeforeYoe Y + D = 365 * Y + Y.ediv 4 - Y.ediv 100 + D := by
    unfold daysBeforeYoe; ring
  exact eaf_inv_core Y D (daysBeforeYoe Y + D) (Y.ediv 4) (Y.emod 4) (Y.ediv 100)
    (Y.emod 100) ((Y.emod 100).ediv 4) ((Y.emod 100).emod 4)
    ((4 * (daysBeforeYoe Y + D) + 3).ediv 146097)
    ((4 * (daysBeforeYoe Y + D) + 3).emod 146097)
    (((4 * (daysBeforeYoe Y + D) + 3).emod 146097).ediv 4)
    (((4 * (daysBeforeYoe Y + D) + 3).emod 146097).emod 4)
    ((4 * (((4 * (daysBeforeYoe Y + D) + 3).emod 146097).ediv 4) + 3).ediv 1461)
    ((4 * (((4 * (daysBeforeYoe Y + D) + 3).emod 146097).ediv 4) + 3).emod 1461)
    (((4 * (((4 * (daysBeforeYoe Y + D) + 3).emod 146097).ediv 4) + 3).emod 1461).ediv 4)
    (((4 * (((4 * (daysBeforeYoe Y + D) + 3).emod 146097).ediv 4) + 3).emod 1461).emod 4)
    hY0 hY1 hD0 hD1 ha (by omega) e4.2.1 e4.2.2 (by omega) e100.2.1 e100.2.2
    (by omega) eS.2.1 eS.2.2 (by omega) d1.2.1 d1.2.2 (by omega) d2.2.1 d2.2.2
    (by omega) d3.2.1 d3.2.2 (by omega) d4.2.1 d4.2.2

/-! ## Month/day-of-year conversion lemmas -/

theorem mpOfDoy_range (doy : Int) (h0 : 0 ≤ doy) (h1 : doy ≤ 365) :
    0 ≤ mpOfDoy doy ∧ mpOfDoy doy ≤ 11 := by
  have := ediv_emod_decomp (5 * doy + 2) 153 (by norm_num)
  unfold mpOfDoy
  omega

theorem dayOfDoy_spec (doy : Int) (_h0 : 0 ≤ doy) (_h1 : doy ≤ 365) :
    (153 * mpOfDoy doy + 2).ediv 5 + dayOfDoy doy - 1 = doy ∧
    1 ≤ dayOfDoy doy ∧ dayOfDoy doy ≤ 31 := by
  have h := ediv_emod_decomp (5 * doy + 2) 153 (by norm_num)
  have h2 := ediv_emod_decomp (153 * mpOfDoy doy + 2) 5 (by norm_num)
  unfold dayOfDoy
  unfold mpOfDoy at h2 ⊢
  omega

theorem monthOfMp_range (mp : Int) (_h0 : 0 ≤ mp) (_h1 : mp ≤ 11) :
    1 ≤ monthOfMp mp ∧ monthOfMp mp ≤ 12 := by
  unfold monthOfMp
  split_ifs <;> omega

theorem marchShift_monthOfMp (mp : Int) (h0 : 0 ≤ mp) (h1 : mp ≤ 11) :
    marchShift (monthOfMp mp) = mp := by
  unfold marchShift monthOfMp
  split_ifs <;> omega

theorem monthOfMp_marchShift (m : Int) (h0 : 1 ≤ m) (h1 : m ≤ 12) :
    monthOfMp (marchShift m) = m := by
  unfold marchShift monthOfMp
  split_ifs <;> omega

theorem marchShift_range (m : Int) (h0 : 1 ≤ m) (h1 : m ≤ 12) :
    0 ≤ marchShift m ∧ marchShift m ≤ 11 := by
  unfold marchShift
  split_ifs <;> omega

/-- Backward round trip: reassembling the civil components of a day number
gives back the day number, and the components are in calendar range. -/
theorem civil_back (z : Int) :
    daysFromCivil (civilYearOf z) (civilMonthOf z) (civilDayOf z) = z ∧
    1 ≤ civilMonthOf z ∧ civilMonthOf z ≤ 12 ∧
    1 ≤ civilDayOf z ∧ civilDayOf z ≤ 31 := by
  have hdec := ediv_emod_decomp (z + 719468) 146097 (by norm_num)
  have h1 : 0 ≤ doeOf z := hdec.2.1
  have h2 : doeOf z ≤ 146096 := by
    have := hdec.2.2
    unfold doeOf
    omega
  obtain ⟨hsum, hy0, hy1, hd0, hd1⟩ := yoe_doy_spec (doeOf z) h1 h2
  have hd0' : 0 ≤ doyOf z := hd0
  have hd1' : doyOf z ≤ 365 := hd1
  obtain ⟨hmp0, hmp1⟩ := mpOfDoy_range (doyOf z) hd0' hd1'
  obtain ⟨hdd, hda, hdb⟩ := dayOfDoy_spec (doyOf z) hd0' hd1'
  obtain ⟨hm1, hm2⟩ := monthOfMp_range (mpOfDoy (doyOf z)) hmp0 hmp1
  have hm1' : 1 ≤ civilMonthOf z := hm1
  have hm2' : civilMonthOf z ≤ 12 := hm2
  have hms : marchShift (civilMonthOf z) = mpOfDoy (doyOf z) :=
    marchShift_monthOfMp (mpOfDoy (doyOf z)) hmp0 hmp1
  have hysh : yShift (civilYearOf z) (civilMonthOf z) =
      eraOf z * 400 + yoeOfDoe (doeOf z) := by
    unfold yShift civilYearOf
    split_ifs <;> ring
  have hera : (eraOf z * 400 + yoeOfDoe (doeOf z)).ediv 400 = eraOf z := by
    have := ediv_emod_decomp (eraOf z * 400 + yoeOfDoe (doeOf z)) 400 (by norm_num)
    omega
  have harg : eraOf z * 400 + yoeOfDoe (doeOf z) - eraOf z * 400 = yoeOfDoe (doeOf z) := by
    ring
  refine ⟨?_, hm1', hm2', hda, hdb⟩
  unfold daysFromCivil
  rw [hysh, hera, harg, hms]
  have hdd' : (153 * mpOfDoy (doyOf z) + 2).ediv 5 + civilDayOf z - 1 = doyOf z := hdd
  have hsum' : daysBeforeYoe (yoeOfDoe (doeOf z)) + doyOf z = doeOf z := hsum
  have hz : eraOf z * 146097 + doeOf z = z + 719468 := by
    unfold eraOf doeOf
    omega
  omega

/-- Forward round trip (first of month): extracting the civil components of
`daysFromCivil y m 1` recovers `(y, m, 1)`, for any year and month 1..12. -/
theorem civil_fwd1 (y m : Int) (h1 : 1 ≤ m) (h2 : m ≤ 12) :
    civilYearOf (daysFromCivil y m 1) = y ∧
    civilMonthOf (daysFromCivil y m 1) = m ∧
    civilDayOf (daysFromCivil y m 1) = 1 := by
  have hyx := ediv_emod_decomp (yShift y m) 400 (by norm_num)
  have hyoe0 : 0 ≤ yShift y m - (yShift y m).ediv 400 * 400 ∧
      yShift y m - (yShift y m).ediv 400 * 400 ≤ 399 := by omega
  obtain ⟨hms0, hms1⟩ := marchShift_range m h1 h2
  have hdoy := ediv_emod_decomp (153 * marchShift m + 2) 5 (by norm_num)
  have hdoyr : 0 ≤ (153 * marchShift m + 2).ediv 5 ∧
      (153 * marchShift m + 2).ediv 5 ≤ 337 := by omega
  have hq4 := ediv_emod_decomp (yShift y m - (yShift y m).ediv 400 * 400) 4 (by norm_num)
  have hq100 := ediv_emod_decomp (yShift y m - (yShift y m).ediv 400 * 400) 100
    (by norm_num)
  have hdbb : 0 ≤ daysBeforeYoe (yShift y m - (yShift y m).ediv 400 * 400) ∧
      daysBeforeYoe (yShift y m - (yShift y m).ediv 400 * 400) ≤ 145731 := by
    unfold daysBeforeYoe
    omega
  have hz : daysFromCivil y m 1 + 719468 =
      (yShift y m).ediv 400 * 146097 +
        (daysBeforeYoe (yShift y m - (yShift y m).ediv 400 * 400) +
          (153 * marchShift m + 2).ediv 5) := by
    unfold daysFromCivil
    ring
  have hzdec := ediv_emod_decomp (daysFromCivil y m 1 + 719468) 146097 (by norm_num)
  have hdoe : doeOf (daysFromCivil y m 1) =
      daysBeforeYoe (yShift y m - (yShift y m).ediv 400 * 400) +
        (153 * marchShift m + 2).ediv 5 ∧
      eraOf (daysFromCivil y m 1) = (yShift y m).ediv 400 := by
    unfold doeOf eraOf
    omega
  obtain ⟨hYy, hDd⟩ := eaf_inv (yShift y m - (yShift y m).ediv 400 * 400)
    ((153 * marchShift m + 2).ediv 5) hyoe0.1 hyoe0.2 hdoyr.1 (by omega)
  have hyoeEq : yoeOfDoe (doeOf (daysFromCivil y m 1)) =
      yShift y m - (yShift y m).ediv 400 * 400 := by
    rw [hdoe.1]
    exact hYy
  have hdoyEq : doyOf (daysFromCivil y m 1) = (153 * marchShift m + 2).ediv 5 := by
    unfold doyOf
    rw [hdoe.1]
    exact hDd
  have hdc := ediv_emod_decomp (5 * ((153 * marchShift m + 2).ediv 5) + 2) 153
    (by norm_num)
  have hmp : mpOfDoy ((153 * marchShift m + 2).ediv 5) = marchShift m := by
    unfold mpOfDoy
    omega
  have hmonth : civilMonthOf (daysFromCivil y m 1) = m := by
    unfold civilMonthOf
    rw [hdoyEq, hmp]
    exact monthOfMp_marchShift m h1 h2
  have hday : civilDayOf (daysFromCivil y m 1) = 1 := by
    unfold civilDayOf dayOfDoy
    rw [hdoyEq, hmp]
    omega
  refine ⟨?_, hmonth, hday⟩
  unfold civilYearOf
  rw [hdoe.2, hyoeEq, hmonth]
  unfold yShift
  split_ifs <;> ring

/-! ## Core types of the `meta` package (`time.go`)

`Errorable` is the error value returned by the field decoders (Go `nil`,
`ErrBlank`, `ErrTime`, `ErrMin`, `ErrMax`).  `Time` is the field state
(`Val`, embedded `Nullity`/`Presence`, `Path`).  Go's zero `time.Time`
(January 1, year 1, 00:00:00 UTC) is `zeroTimeInstant`. -/

inductive Errorable where
  | nilErr
  | ErrBlank
  | ErrTime
  | ErrMin
  | ErrMax
deriving DecidableEq

def zeroTimeInstant : Int := mkInstant 1 1 1 0 0 0 0

structure Time where
  Val : Int := zeroTimeInstant
  Null : Bool := false
  Present : Bool := false
  Path : String := ""
deriving DecidableEq

structure RoundConfig where
  unit : String
  direction : String
deriving DecidableEq

structure DateLimit where
  value : Int := zeroTimeInstant
  isAbsolute : Bool := false
  exclusive : Bool := false
  raw : String := ""
deriving DecidableEq

structure TimeOptions where
  Required : Bool := false
  DiscardBlank : Bool := true
  Null : Bool := false
  Format : List String := []
  MinDate : Option DateLimit := none
  MaxDate : Option DateLimit := none
  Round : Option RoundConfig := none
deriving DecidableEq

structure timeComponent where
  year : Int
  month : Int
  day : Int
  hour : Int
  minute : Int
  second : Int
  nanosecond : Int
deriving DecidableEq

structure unitRoundingMethods where
  upFunc : timeComponent → timeComponent
  zeroFunc : timeComponent → timeComponent

/-- External inputs of the pipeline: the sampled wall clock (`time.Now()`)
and the standard library layout parser (`time.Parse`, `none` on error). -/
structure TimeEnv where
  now : Int
  parseFormat : String → String → Option Int

/-! ## Static lookup tables (`time.go` global maps) -/

/-- `timeFormatMap`: predefined format names to Go layout strings. -/
def timeFormatMap (s : String) : Option String :=
  match s with
  | "ANSIC" => some ("Mon Jan _2 15:04:05 2006")
  | "UnixDate" => some ("Mon Jan _2 15:04:05 MST 2006")
  | "RubyDate" => some ("Mon Jan 02 15:04:05 -0700 2006")
  | "RFC822" => some ("02 Jan 06 15:04 MST")
  | "RFC822Z" => some ("02 Jan 06 15:04 -0700")
  | "RFC850" => some ("Monday, 02-Jan-06 15:04:05 MST")
  | "RFC1123" => some ("Mon, 02 Jan 2006 15:04:05 MST")
  | "RFC1123Z" => some ("Mon, 02 Jan 2006 15:04:05 -0700")
  | "RFC3339" => some ("2006-01-02T15:04:05Z07:00")
  | "RFC3339Nano" => some ("2006-01-02T15:04:05.999999999Z07:00")
  | "Kitchen" => some ("3:04PM")
  | "Stamp" => some ("Jan _2 15:04:05")
  | "StampMilli" => some ("Jan _2 15:04:05.000")
  | "StampMicro" => some ("Jan _2 15:04:05.000000")
  | "StampNano" => some ("Jan _2 15:04:05.000000000")
  | "DateTime" => some ("2006-01-02 15:04:05")
  | "DateOnly" => some ("2006-01-02")
  | "TimeOnly" => some ("15:04:05")
  | _ => none

/-- `dayNameToWeekday`: day names (and abbreviations) to weekday numbers. -/
def dayNameToWeekday (s : String) : Option Int :=
  match s with
  | "sunday" => some 0
  | "monday" => some 1
  | "tuesday" => some 2
  | "wednesday" => some 3
  | "thursday" => some 4
  | "friday" => some 5
  | "saturday" => some 6
  | "sun" => some 0
  | "mon" => some 1
  | "tue" => some 2
  | "wed" => some 3
  | "thu" => some 4
  | "fri" => some 5
  | "sat" => some 6
  | _ => none

def dayNames : List String :=
  ["sunday", "monday", "tuesday", "wednesday", "thursday", "friday", "saturday"]

/-- `validUnits`: traditional rounding units. -/
def validUnits (s : String) : Option String :=
  match s with
  | "year" => some ("year")
  | "month" => some ("month")
  | "week" => some ("week")
  | "day" => some ("day")
  | "hour" => some ("hour")
  | "minute" => some ("minute")
  | "second" => some ("second")
  | _ => none

/-- `validDirections`: valid rounding directions. -/
def validDirections (s : String) : Option String :=
  match s with
  | "up" => some ("up")
  | "down" => some ("down")
  | "nearest" => some ("nearest")
  | _ => none

/-- `timeUnitDuration`: duration units, in nanoseconds. -/
def timeUnitDuration (unit : String) : Option Int :=
  match unit with
  | "hour" => some nsPerHour
  | "minute" => some nsPerMinute
  | "second" => some nsPerSecond
  | "nanosecond" => some 1
  | _ => none

/-- `timeUnitAddDate`: calendar units to `AddDate` deltas. -/
def timeUnitAddDate (unit : String) : Option (Int → Int × Int × Int) :=
  match unit with
  | "year" => some (fun delta => (delta, 0, 0))
  | "month" => some (fun delta => (0, delta, 0))
  | "week" => some (fun delta => (0, 0, delta * 7))
  | "day" => some (fun delta => (0, 0, delta))
  | _ => none

/-! ## Component extraction / reassembly (`time.go` component methods) -/

def getTimeComponents (v : Int) : timeComponent :=
  ⟨tYear v, tMonth v, tDay v, tHour v, tMinute v, tSecond v, tNanosecond v⟩

/-- `createTimeFromComponents` (location is UTC in this embedding). -/
def createTimeFromComponents (c : timeComponent) : Int :=
  mkInstant c.year c.month c.day c.hour c.minute c.second c.nanosecond

/-- `unitRoundingMap`: per-unit up-step and zeroing functions. -/
def unitRoundingMap (unit : String) : Option unitRoundingMethods :=
  match unit with
  | "year" => some
      { upFunc := fun c => { c with year := c.year + 1 },
        zeroFunc := fun c =>
          { c with month := 1, day := 1, hour := 0, minute := 0, second := 0,
                   nanosecond := 0 } }
  | "month" => some
      { upFunc := fun c =>
          { c with year := tYear (addDate (mkInstant c.year c.month 1 0 0 0 0) 0 1 0),
                   month := tMonth (addDate (mkInstant c.year c.month 1 0 0 0 0) 0 1 0),
                   day := 1, hour := 0, minute := 0, second := 0, nanosecond := 0 },
        zeroFunc := fun c =>
          { c with day := 1, hour := 0, minute := 0, second := 0, nanosecond := 0 } }
  | "day" => some
      { upFunc := fun c => { c with day := c.day + 1 },
        zeroFunc := fun c =>
          { c with hour := 0, minute := 0, second := 0, nanosecond := 0 } }
  | "hour" => some
      { upFunc := fun c => { c with hour := c.hour + 1 },
        zeroFunc := fun c => { c with minute := 0, second := 0, nanosecond := 0 } }
  | "minute" => some
      { upFunc := fun c => { c with minute := c.minute + 1 },
        zeroFunc := fun c => { c with second := 0, nanosecond := 0 } }
  | "second" => some
      { upFunc := fun c => { c with second := c.second + 1 },
        zeroFunc := fun c => { c with nanosecond := 0 } }
  | _ => none

/-- `boundaryChecks`: per-unit boundary predicates. -/
def boundaryChecks (unit : String) : Option (Int → Bool) :=
  match unit with
  | "year" => some (fun v => tYearDay v == 1 && tHour v == 0 && tMinute v == 0 &&
      tSecond v == 0 && tNanosecond v == 0)
  | "month" => some (fun v => tDay v == 1 && tHour v == 0 && tMinute v == 0 &&
      tSecond v == 0 && tNanosecond v == 0)
  | "day" => some (fun v => tHour v == 0 && tMinute v == 0 && tSecond v == 0 &&
      tNanosecond v == 0)
  | "hour" => some (fun v => tMinute v == 0 && tSecond v == 0 && tNanosecond v == 0)
  | "minute" => some (fun v => tSecond v == 0 && tNanosecond v == 0)
  | "second" => some (fun v => tNanosecond v == 0)
  | _ => none

/-! ## Rounding engine (`time.go` rounding methods, acting on `t.Val`) -/

/-- `roundDownToWeekday`: most recent `targetDay` (0=Sunday..6=Saturday) at
midnight, today included. -/
def roundDownToWeekday (v : Int) (targetDay : Int) : Int :=
  let dss := tWeekday v - targetDay
  let dss := if dss < 0 then dss + 7 else dss
  createTimeFromComponents ⟨tYear v, tMonth v, tDay v - dss, 0, 0, 0, 0⟩

def isAtDayNameBoundary (v : Int) (unit : String) : Bool :=
  match dayNameToWeekday unit with
  | some w => v == roundDownToWeekday v w
  | none => false

def isAtBoundary (v : Int) (unit : String) : Bool :=
  match boundaryChecks unit with
  | some check => check v
  | none => isAtDayNameBoundary v unit

def roundStandardUnit (v : Int) (unit direction : String) : timeComponent :=
  match unitRoundingMap unit with
  | some config =>
    let comp := getTimeComponents v
    let comp := if direction == "up" && !(isAtBoundary v unit) then config.upFunc comp
                else comp
    config.zeroFunc comp
  | none => getTimeComponents v

def isStandardUnit (unit : String) : Bool :=
  unit == "year" || unit == "month" || unit == "day" || unit == "hour" ||
    unit == "minute" || unit == "second"

def roundComponents (v : Int) (unit direction : String) : timeComponent :=
  if isStandardUnit unit then roundStandardUnit v unit direction
  else getTimeComponents v

def roundStandardDown (v : Int) (unit : String) : Int :=
  createTimeFromComponents (roundComponents v unit ("down"))

def roundStandardUp (v : Int) (unit : String) : Int :=
  if isAtBoundary v unit then v
  else createTimeFromComponents (roundComponents v unit ("up"))

def roundDayNameDown (v : Int) (unit : String) : Int :=
  match dayNameToWeekday unit with
  | some w => roundDownToWeekday v w
  | none => v

def roundDayNameUp (v : Int) (unit : String) : Int :=
  match dayNameToWeekday unit with
  | some w =>
    if v == roundDownToWeekday v w then roundDownToWeekday v w
    else addDate (roundDownToWeekday v w) 0 0 7
  | none => v

def roundDown (v : Int) (unit : String) : Int :=
  if isStandardUnit unit then roundStandardDown v unit
  else if unit == "week" then roundDownToWeekday v 1
  else roundDayNameDown v unit

def roundUp (v : Int) (unit : String) : Int :=
  if isStandardUnit unit then roundStandardUp v unit
  else if unit == "week" then addDate (roundDownToWeekday v 1) 0 0 7
  else roundDayNameUp v unit

def roundNearest (v : Int) (unit : String) : Int :=
  if roundDown v unit = roundUp v unit then roundDown v unit
  else
    let midpoint := roundDown v unit + (roundUp v unit - roundDown v unit).tdiv 2
    if v < midpoint ∨ v = midpoint then roundDown v unit
    else roundUp v unit

/-- `applyRounding`: mutate `t.Val` according to the configured direction
(`switch` with no default: unmatched directions leave the value unchanged). -/
def applyRounding (t : Time) (opts : TimeOptions) : Time :=
  match opts.Round with
  | none => t
  | some rc =>
    if rc.direction == "down" then { t with Val := roundDown t.Val rc.unit }
    else if rc.direction == "up" then { t with Val := roundUp t.Val rc.unit }
    else if rc.direction == "nearest" then { t with Val := roundNearest t.Val rc.unit }
    else t

/-! Validation of the rounding engine against `time_test.go` expectations. -/

example : roundDown (mkInstant 2024 1 15 14 30 45 0) ("day") =
    mkInstant 2024 1 15 0 0 0 0 := by decide
example : roundDown (mkInstant 2024 1 15 14 30 45 0) ("hour") =
    mkInstant 2024 1 15 14 0 0 0 := by decide
example : roundDown (mkInstant 2024 1 15 14 30 45 0) ("minute") =
    mkInstant 2024 1 15 14 30 0 0 := by decide
example : roundDown (mkInstant 2024 1 17 14 30 45 0) ("week") =
    mkInstant 2024 1 15 0 0 0 0 := by decide
example : roundDown (mkInstant 2024 1 15 14 30 45 0) ("month") =
    mkInstant 2024 1 1 0 0 0 0 := by decide
example : roundDown (mkInstant 2024 6 15 14 30 45 0) ("year") =
    mkInstant 2024 1 1 0 0 0 0 := by decide
example : roundUp (mkInstant 2024 1 15 14 30 45 0) ("day") =
    mkInstant 2024 1 16 0 0 0 0 := by decide
example : roundUp (mkInstant 2024 1 15 14 30 45 0) ("hour") =
    mkInstant 2024 1 15 15 0 0 0 := by decide
example : roundUp (mkInstant 2024 1 15 14 30 45 0) ("minute") =
    mkInstant 2024 1 15 14 31 0 0 := by decide
example : roundUp (mkInstant 2024 1 17 14 30 45 0) ("week") =
    mkInstant 2024 1 22 0 0 0 0 := by decide
example : roundUp (mkInstant 2024 1 15 14 30 45 0) ("month") =
    mkInstant 2024 2 1 0 0 0 0 := by decide
example : roundUp (mkInstant 2024 6 15 14 30 45 0) ("year") =
    mkInstant 2025 1 1 0 0 0 0 := by decide
example : roundNearest (mkInstant 2024 1 15 12 0 0 0) ("day") =
    mkInstant 2024 1 15 0 0 0 0 := by decide
example : roundNearest (mkInstant 2024 1 15 14 30 0 0) ("hour") =
    mkInstant 2024 1 15 14 0 0 0 := by decide
example : roundUp (mkInstant 2024 1 15 0 0 0 0) ("day") =
    mkInstant 2024 1 15 0 0 0 0 := by decide
example : roundUp (mkInstant 2024 1 15 14 0 0 0) ("hour") =
    mkInstant 2024 1 15 14 0 0 0 := by decide
example : roundDown (mkInstant 2024 1 17 14 30 45 0) ("sunday") =
    mkInstant 2024 1 14 0 0 0 0 := by decide
example : roundDown (mkInstant 2024 1 17 14 30 45 0) ("monday") =
    mkInstant 2024 1 15 0 0 0 0 := by decide
example : roundUp (mkInstant 2024 1 17 14 30 45 0) ("wednesday") =
    mkInstant 2024 1 24 0 0 0 0 := by decide
example : roundNearest (mkInstant 2024 1 17 14 30 45 0) ("friday") =
    mkInstant 2024 1 19 0 0 0 0 := by decide
example : roundUp (mkInstant 2024 1 31 14 0 0 0) ("month") =
    mkInstant 2024 2 1 0 0 0 0 := by decide
example : roundUp (mkInstant 2024 2 29 14 0 0 0) ("month") =
    mkInstant 2024 3 1 0 0 0 0 := by decide
example : roundUp (mkInstant 2024 12 31 14 0 0 0) ("year") =
    mkInstant 2025 1 1 0 0 0 0 := by decide

/-! ## String helpers (models of Go `strings` / `strconv` on ASCII input) -/

/-- Model of Go `strings.Split` with a one-character separator: always yields
at least one (possibly empty) part. -/
def splitOnChar (c : Char) : List Char → List (List Char)
  | [] => [[]]
  | x :: xs =>
    if x = c then [] :: splitOnChar c xs
    else
      match splitOnChar c xs with
      | [] => [[x]]
      | y :: ys => (x :: y) :: ys

def goSplit (s : String) (sep : Char) : List String :=
  (splitOnChar sep s.toList).map String.mk

def isSpaceChar (c : Char) : Bool :=
  c == ' ' || c == '\t' || c == '\n' || c == '\r'

/-- Model of Go `strings.TrimSpace` (ASCII whitespace). -/
def trimSpaceStr (s : String) : String :=
  String.mk (((s.toList.dropWhile isSpaceChar).reverse.dropWhile isSpaceChar).reverse)

/-- Model of Go `strings.ToLower` (ASCII). -/
def toLowerStr (s : String) : String :=
  String.mk (s.toList.map Char.toLower)

def dropSuffixAux : List Char → List Char → Option (List Char)
  | [], rest => some rest
  | _ :: _, [] => none
  | c :: cs, x :: xs => if c = x then dropSuffixAux cs xs else none

/-- `dropSuffixL l suffix` removes `suffix` from the end of `l` if present. -/
def dropSuffixL (l suffix : List Char) : Option (List Char) :=
  (dropSuffixAux suffix.reverse l.reverse).map List.reverse

def digitsVal (l : List Char) : Nat :=
  l.foldl (fun acc c => acc * 10 + (c.toNat - 48)) 0

/-- Model of Go `strconv.Atoi` applied to an all-digit string: fails only on
64-bit overflow. -/
def atoiDigits (l : List Char) : Option Int :=
  if l.isEmpty then none
  else if l.all Char.isDigit then
    if digitsVal l ≤ 9223372036854775807 then some (Int.ofNat (digitsVal l)) else none
  else none

/-! ## Expression resolver (`time.go` expression parsing)

`relativeTimeRegex` is the anchored pattern
`^(\d+)_(year|month|week|day|hour|minute|second|nanosecond)s?_(ago|from_now)$`;
`matchRelativeExpr` is its structural model (capture groups: number, unit,
direction), and `absoluteTimeRegex` is `^(now|today|yesterday|tomorrow)$`. -/

def relUnits : List String :=
  ["year", "month", "week", "day", "hour", "minute", "second", "nanosecond"]

def matchRelativeExpr (value : String) : Option (String × String × String) :=
  let l := value.toList
  let core :=
    match dropSuffixL l ("_ago".toList) with
    | some c => some (c, "ago")
    | none =>
      match dropSuffixL l ("_from_now".toList) with
      | some c => some (c, "from_now")
      | none => none
  match core with
  | none => none
  | some (c, suffixTag) =>
    match splitOnChar '_' c with
    | [numL, unitL] =>
      if !numL.isEmpty && numL.all Char.isDigit then
        let unitRaw := String.mk unitL
        let unit :=
          match dropSuffixL unitL ['s'] with
          | some base =>
            if relUnits.contains (String.mk base) then String.mk base else unitRaw
          | none => unitRaw
        if relUnits.contains unit then some (String.mk numL, unit, suffixTag)
        else none
      else none
    | _ => none

/-- `parseRelativeTimeExpression` on the regex captures: `Atoi` the count,
then calendar (`AddDate`) or fixed-duration arithmetic from `now`. -/
def parseRelativeTimeExpression (now : Int) (numStr unit suffixTag : String) :
    Option Int :=
  match atoiDigits numStr.toList with
  | none => none
  | some delta =>
    let isAgo := suffixTag == "ago"
    match timeUnitAddDate unit with
    | some f =>
      some (if isAgo then addDate now (-(f delta).1) (-(f delta).2.1) (-(f delta).2.2)
            else addDate now (f delta).1 (f delta).2.1 (f delta).2.2)
    | none =>
      match timeUnitDuration unit with
      | some duration =>
        some (if isAgo then now - delta * duration else now + delta * duration)
      | none => none

/-- `absoluteTimeExpressions`: the keyword vocabulary, evaluated at `now`. -/
def absoluteTimeExpressions (now : Int) (name : String) : Option Int :=
  match name with
  | "now" => some now
  | "today" => some (mkInstant (tYear now) (tMonth now) (tDay now) 0 0 0 0)
  | "yesterday" =>
    some (addDate (mkInstant (tYear now) (tMonth now) (tDay now) 0 0 0 0) 0 0 (-1))
  | "tomorrow" =>
    some (addDate (mkInstant (tYear now) (tMonth now) (tDay now) 0 0 0 0) 0 0 1)
  | _ => none

/-- `resolveTimeExpression`: relative pattern first, then keyword pattern;
non-matching input resolves to `none` (not an error). -/
def resolveTimeExpression (now : Int) (value : String) : Option Int :=
  match matchRelativeExpr value with
  | some (numStr, unit, suffixTag) => parseRelativeTimeExpression now numStr unit suffixTag
  | none => absoluteTimeExpressions now value

/-! ## Configuration parsing (`ParseOptions` and helpers) -/

/-- `parseFormats`: default `[RFC3339, "expression"]`; otherwise the
comma-separated list, each entry trimmed and preset names resolved. -/
def parseFormats (formatTag : String) : List String :=
  if formatTag == "" then ["2006-01-02T15:04:05Z07:00", "expression"]
  else
    (goSplit formatTag ',').map (fun f =>
      match timeFormatMap (trimSpaceStr f) with
      | some predefined => predefined
      | none => trimSpaceStr f)

/-- `normalizeDayName`: case-insensitive day name (or abbreviation) to the
canonical full day name. -/
def normalizeDayName (dayName : String) : Option String :=
  if dayName == "" then none
  else
    match dayNameToWeekday (toLowerStr (trimSpaceStr dayName)) with
    | some weekday => some (dayNames.getD weekday.toNat "")
    | none => none

/-- `parseRoundConfig`: lower-case the tag, split on `:`; direction defaults
to `down` (also on an unrecognised direction token); day-name units first,
then traditional units; unknown units yield `none` (rounding disabled). -/
def parseRoundConfig (roundTag : String) : Option RoundConfig :=
  let parts := goSplit (toLowerStr roundTag) ':'
  let unitStr := trimSpaceStr (parts.getD 0 "")
  let direction :=
    if parts.length > 1 then
      match validDirections (trimSpaceStr (parts.getD 1 "")) with
      | some validDir => validDir
      | none => "down"
    else "down"
  match normalizeDayName unitStr with
  | some normalizedDay => some ⟨normalizedDay, direction⟩
  | none =>
    match validUnits unitStr with
    | some validUnit => some ⟨validUnit, direction⟩
    | none => none

/-- `parseExclusivePrefix` in `time.go` (a leading `!` marks an exclusive
bound and is stripped). -/
def parseExclusiveFlag (raw : String) : String × Bool :=
  match raw.toList with
  | '!' :: rest => (String.mk rest, true)
  | _ => (raw, false)

/-! ## Range validation (`time.go` range validation methods) -/

def validateExclusiveBoundary (val boundaryTime : Int) (isMin : Bool) : Bool :=
  if isMin then decide (boundaryTime + TimeComparisonTolerance < val)
  else decide (val < boundaryTime - TimeComparisonTolerance)

def validateInclusiveBoundary (val boundaryTime : Int) (isMin : Bool) : Bool :=
  if isMin then !(decide (val < boundaryTime - TimeComparisonTolerance))
  else !(decide (boundaryTime + TimeComparisonTolerance < val))

def validateTimeBoundary (val boundaryTime : Int) (exclusive isMin : Bool) : Bool :=
  if exclusive then validateExclusiveBoundary val boundaryTime isMin
  else validateInclusiveBoundary val boundaryTime isMin

/-- `dateLimit.Value`: an absolute limit returns its cached instant; an
expression limit re-resolves against `now` and (when a rounding config
exists) applies the field's rounding; a non-resolving raw falls back to
`now`. -/
def dateLimitValue (env : TimeEnv) (d : DateLimit) (opts : TimeOptions) : Int :=
  if d.isAbsolute then d.value
  else
    match resolveTimeExpression env.now d.raw with
    | some v =>
      match opts.Round with
      | some _ =>
        (applyRounding { Val := v, Null := false, Present := false, Path := "" } opts).Val
      | none => v
    | none => env.now

def assertMaxRange (env : TimeEnv) (t : Time) (opts : TimeOptions) : Errorable :=
  match opts.MaxDate with
  | some maxD =>
    if !(validateTimeBoundary t.Val (dateLimitValue env maxD opts) maxD.exclusive false)
    then Errorable.ErrMax
    else Errorable.nilErr
  | none => Errorable.nilErr

/-- `assertTimeRange`: minimum checked first, then maximum. -/
def assertTimeRange (env : TimeEnv) (t : Time) (opts : TimeOptions) : Errorable :=
  match opts.MinDate with
  | some minD =>
    if !(validateTimeBoundary t.Val (dateLimitValue env minD opts) minD.exclusive true)
    then Errorable.ErrMin
    else assertMaxRange env t opts
  | none => assertMaxRange env t opts

/-! ## Value handling and parsing (`time.go` decode methods) -/

def handleEmptyValue (t : Time) (opts : TimeOptions) : Time × Errorable :=
  if opts.Null then ({ t with Present := true, Null := true }, Errorable.nilErr)
  else if opts.Required then (t, Errorable.ErrBlank)
  else if !opts.DiscardBlank then ({ t with Present := true }, Errorable.ErrBlank)
  else (t, Errorable.nilErr)

def parseTimeExpression (env : TimeEnv) (t : Time) (value : String)
    (opts : TimeOptions) : Time × Bool :=
  match resolveTimeExpression env.now value with
  | some v => (applyRounding { t with Val := v, Present := true } opts, true)
  | none => (t, false)

def parseTimeFormat (env : TimeEnv) (t : Time) (value format : String)
    (opts : TimeOptions) : Time × Bool :=
  match env.parseFormat format value with
  | some v => (applyRounding { t with Val := v, Present := true } opts, true)
  | none => (t, false)

/-- The `for _, format := range opts.Format` loop of `parseTimeValue`. -/
def parseTimeValueLoop (env : TimeEnv) (t : Time) (value : String)
    (opts : TimeOptions) : List String → Time × Errorable
  | [] => (t, Errorable.ErrTime)
  | format :: rest =>
    if format == "expression" then
      match parseTimeExpression env t value opts with
      | (t2, true) => (t2, assertTimeRange env t2 opts)
      | (t2, false) => parseTimeValueLoop env t2 value opts rest
    else
      match parseTimeFormat env t value format opts with
      | (t2, true) => (t2, assertTimeRange env t2 opts)
      | (t2, false) => parseTimeValueLoop env t2 value opts rest

def parseTimeValue (env : TimeEnv) (t : Time) (value : String)
    (opts : TimeOptions) : Time × Errorable :=
  parseTimeValueLoop env t value opts opts.Format

def FormValue (env : TimeEnv) (t : Time) (value : String) (opts : TimeOptions) :
    Time × Errorable :=
  if value == "" then handleEmptyValue t opts
  else parseTimeValue env t value opts

def handleZeroTimeValue (t : Time) (opts : TimeOptions) : Time × Errorable :=
  handleEmptyValue t opts

def handleNonZeroTimeValue (env : TimeEnv) (t : Time) (value : Int)
    (opts : TimeOptions) : Time × Errorable :=
  let t2 := applyRounding { t with Present := true, Val := value } opts
  (t2, assertTimeRange env t2 opts)

/-- The dynamic input of `JSONValue`: JSON null, a pre-typed instant, a
string, or any other value (which Go rejects with `ErrTime`). -/
inductive JSONInput where
  | jnull
  | jtime (v : Int)
  | jstring (s : String)
  | jother
deriving DecidableEq

def JSONValue (env : TimeEnv) (t : Time) (path : String) (i : JSONInput)
    (opts : TimeOptions) : Time × Errorable :=
  let t := { t with Path := path }
  match i with
  | JSONInput.jnull => FormValue env t "" opts
  | JSONInput.jtime v =>
    if v == zeroTimeInstant then handleZeroTimeValue t opts
    else handleNonZeroTimeValue env t v opts
  | JSONInput.jstring s => FormValue env t s opts
  | JSONInput.jother => (t, Errorable.ErrTime)

/-- The zero `Time{}` value used by `newDateLimit`. -/
def zeroTime : Time :=
  { Val := zeroTimeInstant, Null := false, Present := false, Path := "" }

/-- `newDateLimit`: empty raw means no limit; an expression raw defers
resolution; otherwise the literal is parsed once through `FormValue` with
the options built so far (a parse error drops the limit). -/
def newDateLimit (env : TimeEnv) (raw : String) (opts : TimeOptions) :
    Option DateLimit :=
  if raw == "" then none
  else
    match resolveTimeExpression env.now (parseExclusiveFlag raw).1 with
    | some _ =>
      some { value := zeroTimeInstant, isAbsolute := false,
             exclusive := (parseExclusiveFlag raw).2, raw := (parseExclusiveFlag raw).1 }
    | none =>
      match FormValue env zeroTime (parseExclusiveFlag raw).1 opts with
      | (t1, Errorable.nilErr) =>
        some { value := t1.Val, isAbsolute := true,
               exclusive := (parseExclusiveFlag raw).2, raw := (parseExclusiveFlag raw).1 }
      | (_, _) => none

/-- The recognised `meta_*` struct-tag keys (`reflect.StructTag.Get`). -/
structure StructTag where
  meta_required : String := ""
  meta_discard_blank : String := ""
  meta_null : String := ""
  meta_format : String := ""
  meta_min : String := ""
  meta_max : String := ""
  meta_round : String := ""
deriving DecidableEq

/-- `ParseOptions`: the options object is built first, then `MinDate`,
then `MaxDate` (each `newDateLimit` call sees the options built so far),
and the rounding configuration is parsed last. -/
def ParseOptions (env : TimeEnv) (tag : StructTag) : TimeOptions :=
  let opts0 : TimeOptions :=
    { Required := tag.meta_required == "true",
      DiscardBlank := tag.meta_discard_blank != "false",
      Null := tag.meta_null == "true",
      Format := parseFormats tag.meta_format,
      MinDate := none, MaxDate := none, Round := none }
  let opts1 := { opts0 with MinDate := newDateLimit env tag.meta_min opts0 }
  let opts2 := { opts1 with MaxDate := newDateLimit env tag.meta_max opts1 }
  if tag.meta_round != "" then { opts2 with Round := parseRoundConfig tag.meta_round }
  else opts2

/-! Validation of the expression resolver and configuration parser against
`time_test.go` behaviour. -/

example : matchRelativeExpr ("3_weeks_ago") = some ("3", "week", "ago") := by decide
example : matchRelativeExpr ("1_day_from_now") = some ("1", "day", "from_now") := by
  decide
example : matchRelativeExpr ("now") = none := by decide
example : matchRelativeExpr ("3days_ago") = none := by decide
example : resolveTimeExpression (mkInstant 2024 1 15 14 30 45 0) ("3_days_ago") =
    some (mkInstant 2024 1 12 14 30 45 0) := by decide
example : resolveTimeExpression (mkInstant 2024 1 15 14 30 45 0) ("2_hours_from_now") =
    some (mkInstant 2024 1 15 16 30 45 0) := by decide
example : resolveTimeExpression (mkInstant 2024 1 15 14 30 45 0) ("1_month_ago") =
    some (mkInstant 2023 12 15 14 30 45 0) := by decide
example : resolveTimeExpression (mkInstant 2024 1 15 14 30 45 0) ("now") =
    some (mkInstant 2024 1 15 14 30 45 0) := by decide
example : resolveTimeExpression (mkInstant 2024 1 15 14 30 45 0) ("today") =
    some (mkInstant 2024 1 15 0 0 0 0) := by decide
example : resolveTimeExpression (mkInstant 2024 1 15 14 30 45 0) ("yesterday") =
    some (mkInstant 2024 1 14 0 0 0 0) := by decide
example : resolveTimeExpression (mkInstant 2024 1 15 14 30 45 0) ("tomorrow") =
    some (mkInstant 2024 1 16 0 0 0 0) := by decide
example : resolveTimeExpression (mkInstant 2024 1 15 14 30 45 0)
    ("2024-01-15T14:30:45Z") = none := by decide
example : resolveTimeExpression (mkInstant 2024 1 15 14 30 45 0) ("wat") = none := by
  decide
example : parseRoundConfig ("day") = some ⟨"day", "down"⟩ := by decide
example : parseRoundConfig ("day:up") = some ⟨"day", "up"⟩ := by decide
example : parseRoundConfig ("week:down") = some ⟨"week", "down"⟩ := by decide
example : parseRoundConfig ("Monday:Nearest") = some ⟨"monday", "nearest"⟩ := by decide
example : parseRoundConfig ("wed:up") = some ⟨"wednesday", "up"⟩ := by decide
example : parseRoundConfig ("banana") = none := by decide
example : parseRoundConfig ("day:sideways") = some ⟨"day", "down"⟩ := by decide
example : parseFormats ("") = ["2006-01-02T15:04:05Z07:00", "expression"] := by decide
example : parseFormats ("RFC3339, 2006-01-02 15:04:05") =
    ["2006-01-02T15:04:05Z07:00", "2006-01-02 15:04:05"] := by decide
example : parseFormats ("DateOnly") = ["2006-01-02"] := by decide
example : parseExclusiveFlag ("!1_day_ago") = ("1_day_ago", true) := by decide
example : parseExclusiveFlag ("2024-01-01") = ("2024-01-01", false) := by decide

/-! ## Instant-level extraction lemmas -/

/-- Time-of-day decomposition of an instant: component ranges and the linear
recomposition identity. -/
theorem tod_bounds (x : Int) :
    x = tDays x * nsPerDay + tNsOfDay x ∧
    0 ≤ tNsOfDay x ∧ tNsOfDay x < nsPerDay ∧
    tNsOfDay x = tHour x * nsPerHour + tMinute x * nsPerMinute +
      tSecond x * nsPerSecond + tNanosecond x ∧
    0 ≤ tHour x ∧ tHour x ≤ 23 ∧ 0 ≤ tMinute x ∧ tMinute x ≤ 59 ∧
    0 ≤ tSecond x ∧ tSecond x ≤ 59 ∧ 0 ≤ tNanosecond x ∧
    tNanosecond x < 1000000000 := by
  have hD := ediv_emod_decomp x 86400000000000 (by norm_num)
  have hH := ediv_emod_decomp (x.emod 86400000000000) 3600000000000 (by norm_num)
  have hM := ediv_emod_decomp ((x.emod 86400000000000).emod 3600000000000)
    60000000000 (by norm_num)
  have hM2 := ediv_emod_decomp (x.emod 86400000000000) 60000000000 (by norm_num)
  have hS := ediv_emod_decomp ((x.emod 86400000000000).emod 60000000000)
    1000000000 (by norm_num)
  have hS2 := ediv_emod_decomp (x.emod 86400000000000) 1000000000 (by norm_num)
  simp only [tDays, tNsOfDay, tHour, tMinute, tSecond, tNanosecond, nsPerDay,
    nsPerHour, nsPerMinute, nsPerSecond]
  omega

/-- Extraction round trip: rebuilding an instant from its extracted calendar
components through `time.Date` is the identity. -/
theorem mk_extract (x : Int) :
    mkInstant (tYear x) (tMonth x) (tDay x) (tHour x) (tMinute x) (tSecond x)
      (tNanosecond x) = x := by
  obtain ⟨hback, hm1, hm2, hd1, hd2⟩ := civil_back (tDays x)
  have hm1' : 1 ≤ tMonth x := hm1
  have hm2' : tMonth x ≤ 12 := hm2
  have hnorm : (tMonth x - 1).ediv 12 = 0 ∧ (tMonth x - 1).emod 12 = tMonth x - 1 := by
    have := ediv_emod_decomp (tMonth x - 1) 12 (by norm_num)
    omega
  unfold mkInstant
  rw [hnorm.1, hnorm.2]
  have e1 : tYear x + 0 = tYear x := by ring
  have e2 : tMonth x - 1 + 1 = tMonth x := by ring
  rw [e1, e2]
  have hlin : daysFromCivil (tYear x) (tMonth x) 1 =
      daysFromCivil (tYear x) (tMonth x) (tDay x) - (tDay x - 1) := by
    unfold daysFromCivil
    ring
  rw [hlin]
  have hback' : daysFromCivil (tYear x) (tMonth x) (tDay x) = tDays x := hback
  rw [hback']
  obtain ⟨hx, _, _, htod, _⟩ := tod_bounds x
  unfold nsPerDay nsPerHour nsPerMinute nsPerSecond at *
  omega

/-! ## Component range and evaluation lemmas for the rounding engine -/

theorem tMonth_range (x : Int) : 1 ≤ tMonth x ∧ tMonth x ≤ 12 :=
  ⟨(civil_back (tDays x)).2.1, (civil_back (tDays x)).2.2.1⟩

theorem tDay_range (x : Int) : 1 ≤ tDay x ∧ tDay x ≤ 31 :=
  ⟨(civil_back (tDays x)).2.2.2.1, (civil_back (tDays x)).2.2.2.2⟩

theorem tWeekday_range (x : Int) : 0 ≤ tWeekday x ∧ tWeekday x ≤ 6 := by
  have := ediv_emod_decomp (tDays x + 4) 7 (by norm_num)
  unfold tWeekday
  omega

theorem tod_zero (x : Int) (h : tNsOfDay x = 0) :
    tHour x = 0 ∧ tMinute x = 0 ∧ tSecond x = 0 ∧ tNanosecond x = 0 := by
  unfold tHour tMinute tSecond tNanosecond
  rw [h]
  decide

/-- Extraction of the first instant of a month. -/
theorem extract_first_of_month (y m : Int) (h1 : 1 ≤ m) (h2 : m ≤ 12) :
    mkInstant y m 1 0 0 0 0 = daysFromCivil y m 1 * nsPerDay ∧
    tYear (mkInstant y m 1 0 0 0 0) = y ∧
    tMonth (mkInstant y m 1 0 0 0 0) = m ∧
    tDay (mkInstant y m 1 0 0 0 0) = 1 ∧
    tDays (mkInstant y m 1 0 0 0 0) = daysFromCivil y m 1 ∧
    tNsOfDay (mkInstant y m 1 0 0 0 0) = 0 := by
  have hnorm : (m - 1).ediv 12 = 0 ∧ (m - 1).emod 12 = m - 1 := by
    have := ediv_emod_decomp (m - 1) 12 (by norm_num)
    omega
  have hval : mkInstant y m 1 0 0 0 0 = daysFromCivil y m 1 * nsPerDay := by
    unfold mkInstant
    rw [hnorm.1, hnorm.2]
    have e1 : y + 0 = y := by ring
    have e2 : m - 1 + 1 = m := by ring
    rw [e1, e2]
    ring
  have hdays : tDays (mkInstant y m 1 0 0 0 0) = daysFromCivil y m 1 ∧
      tNsOfDay (mkInstant y m 1 0 0 0 0) = 0 := by
    rw [hval]
    unfold tDays tNsOfDay nsPerDay
    have := ediv_emod_decomp (daysFromCivil y m 1 * 86400000000000) 86400000000000
      (by norm_num)
    omega
  obtain ⟨hy, hm, hd⟩ := civil_fwd1 y m h1 h2
  refine ⟨hval, ?_, ?_, ?_, hdays.1, hdays.2⟩
  · show civilYearOf (tDays (mkInstant y m 1 0 0 0 0)) = y
    rw [hdays.1]
    exact hy
  · show civilMonthOf (tDays (mkInstant y m 1 0 0 0 0)) = m
    rw [hdays.1]
    exact hm
  · show civilDayOf (tDays (mkInstant y m 1 0 0 0 0)) = 1
    rw [hdays.1]
    exact hd

/-! Evaluation of `roundDown`/`roundUp` on each standard unit (the string
dispatch and `unitRoundingMap` lookup reduce definitionally). -/

theorem roundDown_eval_second (x : Int) : roundDown x ("second") =
    mkInstant (tYear x) (tMonth x) (tDay x) (tHour x) (tMinute x) (tSecond x) 0 := rfl

theorem roundDown_eval_minute (x : Int) : roundDown x ("minute") =
    mkInstant (tYear x) (tMonth x) (tDay x) (tHour x) (tMinute x) 0 0 := rfl

theorem roundDown_eval_hour (x : Int) : roundDown x ("hour") =
    mkInstant (tYear x) (tMonth x) (tDay x) (tHour x) 0 0 0 := rfl

theorem roundDown_eval_day (x : Int) : roundDown x ("day") =
    mkInstant (tYear x) (tMonth x) (tDay x) 0 0 0 0 := rfl

theorem roundDown_eval_month (x : Int) : roundDown x ("month") =
    mkInstant (tYear x) (tMonth x) 1 0 0 0 0 := rfl

theorem roundDown_eval_year (x : Int) : roundDown x ("year") =
    mkInstant (tYear x) 1 1 0 0 0 0 := rfl

theorem roundDown_eval_week (x : Int) : roundDown x ("week") =
    roundDownToWeekday x 1 := rfl

theorem roundDownToWeekday_eval (x w : Int) : roundDownToWeekday x w =
    mkInstant (tYear x) (tMonth x)
      (tDay x - (if tWeekday x - w < 0 then tWeekday x - w + 7 else tWeekday x - w))
      0 0 0 0 := rfl

theorem roundUp_eval_boundary (x : Int) (u : String) (hstd : isStandardUnit u = true)
    (h : isAtBoundary x u = true) : roundUp x u = x := by
  unfold roundUp roundStandardUp
  rw [hstd, h]
  simp

/-! Sub-day components as remainders of the instant. -/

theorem tNanosecond_eq_mod (x : Int) : tNanosecond x = x.emod nsPerSecond := by
  have h1 := ediv_emod_decomp x 86400000000000 (by norm_num)
  have h2 := ediv_emod_decomp (x.emod 86400000000000) 1000000000 (by norm_num)
  have h3 := ediv_emod_decomp x 1000000000 (by norm_num)
  unfold tNanosecond tNsOfDay nsPerDay nsPerSecond
  omega

theorem second_part_eq_mod (x : Int) :
    tSecond x * nsPerSecond + tNanosecond x = x.emod nsPerMinute := by
  have h1 := ediv_emod_decomp x 86400000000000 (by norm_num)
  have h2 := ediv_emod_decomp (x.emod 86400000000000) 1000000000 (by norm_num)
  have h3 := ediv_emod_decomp (x.emod 86400000000000) 60000000000 (by norm_num)
  have h4 := ediv_emod_decomp ((x.emod 86400000000000).emod 60000000000) 1000000000
    (by norm_num)
  have h5 := ediv_emod_decomp x 60000000000 (by norm_num)
  unfold tSecond tNanosecond tNsOfDay nsPerDay nsPerMinute nsPerSecond
  omega

theorem minute_part_eq_mod (x : Int) :
    tMinute x * nsPerMinute + tSecond x * nsPerSecond + tNanosecond x =
      x.emod nsPerHour := by
  have h1 := ediv_emod_decomp x 86400000000000 (by norm_num)
  have h2 := ediv_emod_decomp (x.emod 86400000000000) 1000000000 (by norm_num)
  have h3 := ediv_emod_decomp (x.emod 86400000000000) 60000000000 (by norm_num)
  have h4 := ediv_emod_decomp ((x.emod 86400000000000).emod 60000000000) 1000000000
    (by norm_num)
  have h5 := ediv_emod_decomp (x.emod 86400000000000) 3600000000000 (by norm_num)
  have h6 := ediv_emod_decomp ((x.emod 86400000000000).emod 3600000000000) 60000000000
    (by norm_num)
  have h7 := ediv_emod_decomp x 3600000000000 (by norm_num)
  unfold tMinute tSecond tNanosecond tNsOfDay nsPerDay nsPerHour nsPerMinute nsPerSecond
  omega

theorem hour_part_eq_mod (x : Int) :
    tHour x * nsPerHour + tMinute x * nsPerMinute + tSecond x * nsPerSecond +
      tNanosecond x = x.emod nsPerDay := by
  have ht := tod_bounds x
  have h1 := ediv_emod_decomp x 86400000000000 (by norm_num)
  simp only [tNsOfDay, nsPerDay] at ht ⊢
  omega

/-! Boundary predicates, as remainder conditions for sub-day units. -/

theorem isAtBoundary_second_iff (x : Int) :
    isAtBoundary x ("second") = true ↔ x.emod nsPerSecond = 0 := by
  have := tNanosecond_eq_mod x
  simp only [isAtBoundary, boundaryChecks, beq_iff_eq]
  omega

theorem isAtBoundary_minute_iff (x : Int) :
    isAtBoundary x ("minute") = true ↔ x.emod nsPerMinute = 0 := by
  have h := second_part_eq_mod x
  have hb := tod_bounds x
  simp only [isAtBoundary, boundaryChecks, Bool.and_eq_true, beq_iff_eq]
  unfold nsPerSecond nsPerMinute at *
  omega

theorem isAtBoundary_hour_iff (x : Int) :
    isAtBoundary x ("hour") = true ↔ x.emod nsPerHour = 0 := by
  have h := minute_part_eq_mod x
  have hb := tod_bounds x
  simp only [isAtBoundary, boundaryChecks, Bool.and_eq_true, beq_iff_eq]
  unfold nsPerSecond nsPerMinute nsPerHour at *
  omega

theorem isAtBoundary_day_iff (x : Int) :
    isAtBoundary x ("day") = true ↔ x.emod nsPerDay = 0 := by
  have h := hour_part_eq_mod x
  have hb := tod_bounds x
  simp only [isAtBoundary, boundaryChecks, Bool.and_eq_true, beq_iff_eq]
  unfold nsPerSecond nsPerMinute nsPerHour nsPerDay at *
  omega

theorem isAtBoundary_month_iff (x : Int) :
    isAtBoundary x ("month") = true ↔ tDay x = 1 ∧ tNsOfDay x = 0 := by
  have h := hour_part_eq_mod x
  have hb := tod_bounds x
  simp only [isAtBoundary, boundaryChecks, Bool.and_eq_true, beq_iff_eq]
  unfold tNsOfDay nsPerSecond nsPerMinute nsPerHour nsPerDay at *
  omega

theorem isAtBoundary_year_iff (x : Int) :
    isAtBoundary x ("year") = true ↔ tYearDay x = 1 ∧ tNsOfDay x = 0 := by
  have h := hour_part_eq_mod x
  have hb := tod_bounds x
  simp only [isAtBoundary, boundaryChecks, Bool.and_eq_true, beq_iff_eq]
  unfold tNsOfDay nsPerSecond nsPerMinute nsPerHour nsPerDay at *
  omega

/-! `roundDown` on sub-day units is subtraction of the remainder. -/

theorem roundDown_second_offset (x : Int) :
    roundDown x ("second") = x - x.emod nsPerSecond := by
  rw [roundDown_eval_second]
  have h := mk_extract x
  have hns := tNanosecond_eq_mod x
  unfold mkInstant at h ⊢
  unfold nsPerDay nsPerHour nsPerMinute nsPerSecond at *
  omega

theorem roundDown_minute_offset (x : Int) :
    roundDown x ("minute") = x - x.emod nsPerMinute := by
  rw [roundDown_eval_minute]
  have h := mk_extract x
  have hs := second_part_eq_mod x
  unfold mkInstant at h ⊢
  unfold nsPerDay nsPerHour nsPerMinute nsPerSecond at *
  omega

theorem roundDown_hour_offset (x : Int) :
    roundDown x ("hour") = x - x.emod nsPerHour := by
  rw [roundDown_eval_hour]
  have h := mk_extract x
  have hs := minute_part_eq_mod x
  unfold mkInstant at h ⊢
  unfold nsPerDay nsPerHour nsPerMinute nsPerSecond at *
  omega

theorem roundDown_day_offset (x : Int) :
    roundDown x ("day") = x - x.emod nsPerDay := by
  rw [roundDown_eval_day]
  have h := mk_extract x
  have hs := hour_part_eq_mod x
  unfold mkInstant at h ⊢
  unfold nsPerDay nsPerHour nsPerMinute nsPerSecond at *
  omega

/-! `roundUp` evaluation off the boundary. -/

theorem roundUp_eval_second (x : Int) (h : isAtBoundary x ("second") = false) :
    roundUp x ("second") = mkInstant (tYear x) (tMonth x) (tDay x) (tHour x)
      (tMinute x) (tSecond x + 1) 0 := by
  unfold roundUp roundStandardUp roundComponents roundStandardUnit isStandardUnit
  rw [h]
  simp [unitRoundingMap, getTimeComponents, createTimeFromComponents]

theorem roundUp_eval_minute (x : Int) (h : isAtBoundary x ("minute") = false) :
    roundUp x ("minute") = mkInstant (tYear x) (tMonth x) (tDay x) (tHour x)
      (tMinute x + 1) 0 0 := by
  unfold roundUp roundStandardUp roundComponents roundStandardUnit isStandardUnit
  rw [h]
  simp [unitRoundingMap, getTimeComponents, createTimeFromComponents]

theorem roundUp_eval_hour (x : Int) (h : isAtBoundary x ("hour") = false) :
    roundUp x ("hour") = mkInstant (tYear x) (tMonth x) (tDay x) (tHour x + 1)
      0 0 0 := by
  unfold roundUp roundStandardUp roundComponents roundStandardUnit isStandardUnit
  rw [h]
  simp [unitRoundingMap, getTimeComponents, createTimeFromComponents]

theorem roundUp_eval_day (x : Int) (h : isAtBoundary x ("day") = false) :
    roundUp x ("day") = mkInstant (tYear x) (tMonth x) (tDay x + 1) 0 0 0 0 := by
  unfold roundUp roundStandardUp roundComponents roundStandardUnit isStandardUnit
  rw [h]
  simp [unitRoundingMap, getTimeComponents, createTimeFromComponents]

theorem roundUp_eval_month (x : Int) (h : isAtBoundary x ("month") = false) :
    roundUp x ("month") =
      mkInstant (tYear (addDate (mkInstant (tYear x) (tMonth x) 1 0 0 0 0) 0 1 0))
        (tMonth (addDate (mkInstant (tYear x) (tMonth x) 1 0 0 0 0) 0 1 0))
        1 0 0 0 0 := by
  unfold roundUp roundStandardUp roundComponents roundStandardUnit isStandardUnit
  rw [h]
  simp [unitRoundingMap, getTimeComponents, createTimeFromComponents]

theorem roundUp_eval_year (x : Int) (h : isAtBoundary x ("year") = false) :
    roundUp x ("year") = mkInstant (tYear x + 1) 1 1 0 0 0 0 := by
  unfold roundUp roundStandardUp roundComponents roundStandardUnit isStandardUnit
  rw [h]
  simp [unitRoundingMap, getTimeComponents, createTimeFromComponents]

/-! `roundUp` on sub-day units is rounding to the next multiple. -/

theorem roundUp_second_offset (x : Int) (h : isAtBoundary x ("second") = false) :
    roundUp x ("second") = x - x.emod nsPerSecond + nsPerSecond := by
  rw [roundUp_eval_second x h]
  have hm := mk_extract x
  have hns := tNanosecond_eq_mod x
  unfold mkInstant at hm ⊢
  unfold nsPerDay nsPerHour nsPerMinute nsPerSecond at *
  omega

theorem roundUp_minute_offset (x : Int) (h : isAtBoundary x ("minute") = false) :
    roundUp x ("minute") = x - x.emod nsPerMinute + nsPerMinute := by
  rw [roundUp_eval_minute x h]
  have hm := mk_extract x
  have hs := second_part_eq_mod x
  unfold mkInstant at hm ⊢
  unfold nsPerDay nsPerHour nsPerMinute nsPerSecond at *
  omega

theorem roundUp_hour_offset (x : Int) (h : isAtBoundary x ("hour") = false) :
    roundUp x ("hour") = x - x.emod nsPerHour + nsPerHour := by
  rw [roundUp_eval_hour x h]
  have hm := mk_extract x
  have hs := minute_part_eq_mod x
  unfold mkInstant at hm ⊢
  unfold nsPerDay nsPerHour nsPerMinute nsPerSecond at *
  omega

theorem roundUp_day_offset (x : Int) (h : isAtBoundary x ("day") = false) :
    roundUp x ("day") = x - x.emod nsPerDay + nsPerDay := by
  rw [roundUp_eval_day x h]
  have hm := mk_extract x
  have hs := hour_part_eq_mod x
  unfold mkInstant at hm ⊢
  unfold nsPerDay nsPerHour nsPerMinute nsPerSecond at *
  omega

/-! Calendar-unit helper lemmas. -/

theorem dayMultiple_extract (N : Int) :
    tDays (N * nsPerDay) = N ∧ tNsOfDay (N * nsPerDay) = 0 := by
  unfold tDays tNsOfDay nsPerDay
  have := ediv_emod_decomp (N * 86400000000000) 86400000000000 (by norm_num)
  omega

theorem addDate_days (t n : Int) : addDate t 0 0 n = t + n * nsPerDay := by
  unfold addDate
  have e1 : tYear t + 0 = tYear t := by ring
  have e2 : tMonth t + 0 = tMonth t := by ring
  rw [e1, e2]
  have hmk := mk_extract t
  unfold mkInstant at hmk ⊢
  unfold nsPerDay nsPerHour nsPerMinute nsPerSecond at *
  omega

/-- Day gap walked backwards by `roundDownToWeekday`. -/
def weekdayGap (x w : Int) : Int :=
  if tWeekday x - w < 0 then tWeekday x - w + 7 else tWeekday x - w

theorem roundDownToWeekday_spec (x w : Int) (h0 : 0 ≤ w) (h1 : w ≤ 6) :
    roundDownToWeekday x w = (tDays x - weekdayGap x w) * nsPerDay ∧
    0 ≤ weekdayGap x w ∧ weekdayGap x w ≤ 6 ∧
    tWeekday (roundDownToWeekday x w) = w ∧
    tNsOfDay (roundDownToWeekday x w) = 0 := by
  have hr := tWeekday_range x
  have hgap : 0 ≤ weekdayGap x w ∧ weekdayGap x w ≤ 6 := by
    unfold weekdayGap
    split_ifs <;> omega
  have hval : roundDownToWeekday x w = (tDays x - weekdayGap x w) * nsPerDay := by
    rw [roundDownToWeekday_eval]
    show mkInstant (tYear x) (tMonth x) (tDay x - weekdayGap x w) 0 0 0 0 =
      (tDays x - weekdayGap x w) * nsPerDay
    have hmk := mk_extract x
    have hs := hour_part_eq_mod x
    have hd := ediv_emod_decomp x 86400000000000 (by norm_num)
    unfold mkInstant at hmk ⊢
    unfold tDays at *
    unfold nsPerDay nsPerHour nsPerMinute nsPerSecond at *
    omega
  have hcong : (tDays x - weekdayGap x w + 4).emod 7 = w := by
    unfold weekdayGap tWeekday at *
    have d1 := ediv_emod_decomp (tDays x + 4) 7 (by norm_num)
    split_ifs with hc
    · have d2 := ediv_emod_decomp (tDays x - ((tDays x + 4).emod 7 - w + 7) + 4) 7
        (by norm_num)
      omega
    · have d2 := ediv_emod_decomp (tDays x - ((tDays x + 4).emod 7 - w) + 4) 7
        (by norm_num)
      omega
  obtain ⟨hdm1, hdm2⟩ := dayMultiple_extract (tDays x - weekdayGap x w)
  refine ⟨hval, hgap.1, hgap.2, ?_, ?_⟩
  · unfold tWeekday
    rw [hval, hdm1]
    exact hcong
  · rw [hval]
    exact hdm2

theorem weekday_down_noop (x w : Int) (_h0 : 0 ≤ w) (_h1 : w ≤ 6)
    (hw : tWeekday x = w) (hns : tNsOfDay x = 0) : roundDownToWeekday x w = x := by
  rw [roundDownToWeekday_eval, hw]
  have e : (if w - w < 0 then w - w + 7 else w - w) = 0 := by
    split_ifs <;> omega
  rw [e]
  obtain ⟨hh, hm2, hs2, hn2⟩ := tod_zero x hns
  have hmk := mk_extract x
  rw [hh, hm2, hs2, hn2] at hmk
  have e2 : tDay x - 0 = tDay x := by ring
  rw [e2]
  exact hmk

/-- `roundDownToWeekday` is idempotent. -/
theorem roundDownToWeekday_idem (x w : Int) (h0 : 0 ≤ w) (h1 : w ≤ 6) :
    roundDownToWeekday (roundDownToWeekday x w) w = roundDownToWeekday x w := by
  obtain ⟨_, _, _, hw, hns⟩ := roundDownToWeekday_spec x w h0 h1
  exact weekday_down_noop (roundDownToWeekday x w) w h0 h1 hw hns

theorem yearday_one (x : Int) (h : tYearDay x = 1) : tMonth x = 1 ∧ tDay x = 1 := by
  have hdays : tDays x = daysFromCivil (tYear x) 1 1 := by
    unfold tYearDay at h
    omega
  have hf := civil_fwd1 (tYear x) 1 (by norm_num) (by norm_num)
  constructor
  · show civilMonthOf (tDays x) = 1
    rw [hdays]
    exact hf.2.1
  · show civilDayOf (tDays x) = 1
    rw [hdays]
    exact hf.2.2

/-! Down-rounding is the identity on boundaries (per unit). -/

theorem down_noop_month (x : Int) (hb : isAtBoundary x ("month") = true) :
    roundDown x ("month") = x := by
  rw [isAtBoundary_month_iff] at hb
  obtain ⟨hd, hns⟩ := hb
  obtain ⟨hh, hm2, hs2, hn2⟩ := tod_zero x hns
  rw [roundDown_eval_month]
  have hmk := mk_extract x
  rw [hd, hh, hm2, hs2, hn2] at hmk
  exact hmk

theorem down_noop_year (x : Int) (hb : isAtBoundary x ("year") = true) :
    roundDown x ("year") = x := by
  rw [isAtBoundary_year_iff] at hb
  obtain ⟨hyd, hns⟩ := hb
  obtain ⟨hm1, hd1⟩ := yearday_one x hyd
  obtain ⟨hh, hm2, hs2, hn2⟩ := tod_zero x hns
  rw [roundDown_eval_year]
  have hmk := mk_extract x
  rw [hm1, hd1, hh, hm2, hs2, hn2] at hmk
  exact hmk

/-! Up-rounding lands on the unit's boundary (per unit). -/

theorem roundUp_month_lands (x : Int) (h : isAtBoundary x ("month") = false) :
    isAtBoundary (roundUp x ("month")) ("month") = true := by
  rw [roundUp_eval_month x h]
  obtain ⟨hm1, hm2⟩ :=
    tMonth_range (addDate (mkInstant (tYear x) (tMonth x) 1 0 0 0 0) 0 1 0)
  obtain ⟨_, _, _, hday, _, hns⟩ := extract_first_of_month
    (tYear (addDate (mkInstant (tYear x) (tMonth x) 1 0 0 0 0) 0 1 0))
    (tMonth (addDate (mkInstant (tYear x) (tMonth x) 1 0 0 0 0) 0 1 0)) hm1 hm2
  rw [isAtBoundary_month_iff]
  exact ⟨hday, hns⟩

theorem roundUp_year_lands (x : Int) (h : isAtBoundary x ("year") = false) :
    isAtBoundary (roundUp x ("year")) ("year") = true := by
  rw [roundUp_eval_year x h]
  obtain ⟨hval, hy, hmo, hday, hdays, hns⟩ := extract_first_of_month (tYear x + 1) 1
    (by norm_num) (by norm_num)
  rw [isAtBoundary_year_iff]
  refine ⟨?_, hns⟩
  unfold tYearDay
  rw [hdays, hy]
  omega

theorem roundDown_month_lands (x : Int) :
    isAtBoundary (roundDown x ("month")) ("month") = true := by
  rw [roundDown_eval_month]
  obtain ⟨hm1, hm2⟩ := tMonth_range x
  obtain ⟨_, _, _, hday, _, hns⟩ := extract_first_of_month (tYear x) (tMonth x) hm1 hm2
  rw [isAtBoundary_month_iff]
  exact ⟨hday, hns⟩

theorem roundDown_year_lands (x : Int) :
    isAtBoundary (roundDown x ("year")) ("year") = true := by
  rw [roundDown_eval_year]
  obtain ⟨hval, hy, hmo, hday, hdays, hns⟩ := extract_first_of_month (tYear x) 1
    (by norm_num) (by norm_num)
  rw [isAtBoundary_year_iff]
  refine ⟨?_, hns⟩
  unfold tYearDay
  rw [hdays, hy]
  omega

/-! Unit-string inversion lemmas. -/

theorem isStandardUnit_cases (u : String) (h : isStandardUnit u = true) :
    u = "year" ∨ u = "month" ∨ u = "day" ∨ u = "hour" ∨ u = "minute" ∨
      u = "second" := by
  unfold isStandardUnit at h
  simp only [Bool.or_eq_true, beq_iff_eq] at h
  tauto

theorem dayName_inv (u : String) (w : Int) (h : dayNameToWeekday u = some w) :
    0 ≤ w ∧ w ≤ 6 ∧ isStandardUnit u = false ∧ (u == "week") = false := by
  unfold dayNameToWeekday at h
  split at h <;>
    first
      | (injection h with h2; subst h2; decide)
      | exact absurd h (by simp)

theorem roundDown_dayname_eq (v : Int) (u : String) (w : Int)
    (h : dayNameToWeekday u = some w) :
    roundDown v u = roundDownToWeekday v w := by
  obtain ⟨_, _, hnstd, hnweek⟩ := dayName_inv u w h
  unfold roundDown roundDayNameDown
  rw [hnstd, hnweek]
  simp [h]

theorem roundUp_dayname_eq (v : Int) (u : String) (w : Int)
    (h : dayNameToWeekday u = some w) :
    roundUp v u = roundDayNameUp v u := by
  obtain ⟨_, _, hnstd, hnweek⟩ := dayName_inv u w h
  unfold roundUp
  rw [hnstd, hnweek]
  simp

theorem weekday_up_noop_at (v : Int) (u : String) (w : Int)
    (hw : dayNameToWeekday u = some w) (hdown : roundDownToWeekday v w = v) :
    roundDayNameUp v u = v := by
  have hb : (v == roundDownToWeekday v w) = true := by
    rw [hdown]
    exact beq_self_eq_true v
  simp only [roundDayNameUp, hw, hb, if_true]
  exact hdown

theorem roundDayNameUp_result (v : Int) (u : String) (w : Int)
    (hw : dayNameToWeekday u = some w) (h0 : 0 ≤ w) (h1 : w ≤ 6) :
    tWeekday (roundDayNameUp v u) = w ∧ tNsOfDay (roundDayNameUp v u) = 0 := by
  obtain ⟨hval, hg0, hg1, hwd, hns⟩ := roundDownToWeekday_spec v w h0 h1
  simp only [roundDayNameUp, hw]
  by_cases hv : v = roundDownToWeekday v w
  · have hb : (v == roundDownToWeekday v w) = true := by
      simp only [beq_iff_eq]
      exact hv
    rw [hb]
    simp only [if_true]
    exact ⟨hwd, hns⟩
  · have hb : (v == roundDownToWeekday v w) = false := by
      simp only [beq_eq_false_iff_ne]
      exact hv
    rw [hb]
    simp only [Bool.false_eq_true, if_false]
    rw [addDate_days, hval]
    obtain ⟨hdm1, hdm2⟩ := dayMultiple_extract (tDays v - weekdayGap v w + 7)
    have he : (tDays v - weekdayGap v w) * nsPerDay + 7 * nsPerDay =
        (tDays v - weekdayGap v w + 7) * nsPerDay := by ring
    rw [he]
    refine ⟨?_, hdm2⟩
    obtain ⟨hdm1b, _⟩ := dayMultiple_extract (tDays v - weekdayGap v w)
    unfold tWeekday
    rw [hdm1]
    unfold tWeekday at hwd
    rw [hval, hdm1b] at hwd
    have d1 := ediv_emod_decomp (tDays v - weekdayGap v w + 4) 7 (by norm_num)
    have d2 := ediv_emod_decomp (tDays v - weekdayGap v w + 7 + 4) 7 (by norm_num)
    omega

theorem roundDayNameUp_idem (v : Int) (u : String) (w : Int)
    (hw : dayNameToWeekday u = some w) (h0 : 0 ≤ w) (h1 : w ≤ 6) :
    roundDayNameUp (roundDayNameUp v u) u = roundDayNameUp v u := by
  obtain ⟨hwd, hns⟩ := roundDayNameUp_result v u w hw h0 h1
  exact weekday_up_noop_at _ u w hw
    (weekday_down_noop (roundDayNameUp v u) w h0 h1 hwd hns)

/-! Up-rounding of sub-day units lands on the boundary. -/

theorem roundUp_second_lands (x : Int) (h : isAtBoundary x ("second") = false) :
    isAtBoundary (roundUp x ("second")) ("second") = true := by
  rw [isAtBoundary_second_iff, roundUp_second_offset x h]
  have d1 := ediv_emod_decomp x 1000000000 (by norm_num)
  have d2 := ediv_emod_decomp (x - x.emod nsPerSecond + nsPerSecond) 1000000000
    (by norm_num)
  unfold nsPerSecond at *
  omega

theorem roundUp_minute_lands (x : Int) (h : isAtBoundary x ("minute") = false) :
    isAtBoundary (roundUp x ("minute")) ("minute") = true := by
  rw [isAtBoundary_minute_iff, roundUp_minute_offset x h]
  have d1 := ediv_emod_decomp x 60000000000 (by norm_num)
  have d2 := ediv_emod_decomp (x - x.emod nsPerMinute + nsPerMinute) 60000000000
    (by norm_num)
  unfold nsPerMinute at *
  omega

theorem roundUp_hour_lands (x : Int) (h : isAtBoundary x ("hour") = false) :
    isAtBoundary (roundUp x ("hour")) ("hour") = true := by
  rw [isAtBoundary_hour_iff, roundUp_hour_offset x h]
  have d1 := ediv_emod_decomp x 3600000000000 (by norm_num)
  have d2 := ediv_emod_decomp (x - x.emod nsPerHour + nsPerHour) 3600000000000
    (by norm_num)
  unfold nsPerHour at *
  omega

theorem roundUp_day_lands (x : Int) (h : isAtBoundary x ("day") = false) :
    isAtBoundary (roundUp x ("day")) ("day") = true := by
  rw [isAtBoundary_day_iff, roundUp_day_offset x h]
  have d1 := ediv_emod_decomp x 86400000000000 (by norm_num)
  have d2 := ediv_emod_decomp (x - x.emod nsPerDay + nsPerDay) 86400000000000
    (by norm_num)
  unfold nsPerDay at *
  omega

theorem up_idem_of_lands (x : Int) (u : String) (hstd : isStandardUnit u = true)
    (lands : isAtBoundary x u = false → isAtBoundary (roundUp x u) u = true) :
    roundUp (roundUp x u) u = roundUp x u := by
  by_cases hb : isAtBoundary x u = true
  · have hx := roundUp_eval_boundary x u hstd hb
    rw [hx]
    exact hx
  · rw [Bool.not_eq_true] at hb
    exact roundUp_eval_boundary _ u hstd (lands hb)

/-! Down-rounding of sub-day units is idempotent. -/

theorem down_idem_second (x : Int) :
    roundDown (roundDown x ("second")) ("second") = roundDown x ("second") := by
  simp only [roundDown_second_offset]
  have d1 := ediv_emod_decomp x 1000000000 (by norm_num)
  have d2 := ediv_emod_decomp (x - x.emod nsPerSecond) 1000000000 (by norm_num)
  unfold nsPerSecond at *
  omega

theorem down_idem_minute (x : Int) :
    roundDown (roundDown x ("minute")) ("minute") = roundDown x ("minute") := by
  simp only [roundDown_minute_offset]
  have d1 := ediv_emod_decomp x 60000000000 (by norm_num)
  have d2 := ediv_emod_decomp (x - x.emod nsPerMinute) 60000000000 (by norm_num)
  unfold nsPerMinute at *
  omega

theorem down_idem_hour (x : Int) :
    roundDown (roundDown x ("hour")) ("hour") = roundDown x ("hour") := by
  simp only [roundDown_hour_offset]
  have d1 := ediv_emod_decomp x 3600000000000 (by norm_num)
  have d2 := ediv_emod_decomp (x - x.emod nsPerHour) 3600000000000 (by norm_num)
  unfold nsPerHour at *
  omega

theorem down_idem_day (x : Int) :
    roundDown (roundDown x ("day")) ("day") = roundDown x ("day") := by
  simp only [roundDown_day_offset]
  have d1 := ediv_emod_decomp x 86400000000000 (by norm_num)
  have d2 := ediv_emod_decomp (x - x.emod nsPerDay) 86400000000000 (by norm_num)
  unfold nsPerDay at *
  omega

/-- C2 (amended): rounding is a no-op at the unit's boundary for every
standard calendar unit (`year`..`second`: both directions, via the explicit
`isAtBoundary` guard of `roundStandardUp` and the zeroing of already-zero
components) and for every named weekday (both directions).  For the `week`
unit, `roundDown` is a no-op at a Monday midnight, but — contrary to the
original claim — `roundUp` has no boundary guard and always moves to the
next Monday (seven days later). -/
theorem C2_boundary_noop_amended (x : Int) (u : String) :
    (isStandardUnit u = true → isAtBoundary x u = true →
      roundUp x u = x ∧ roundDown x u = x) ∧
    (∀ w : Int, dayNameToWeekday u = some w → tWeekday x = w → tNsOfDay x = 0 →
      roundUp x u = x ∧ roundDown x u = x) ∧
    (tWeekday x = 1 → tNsOfDay x = 0 →
      roundDown x ("week") = x ∧ roundUp x ("week") = x + 7 * nsPerDay) := by
  refine ⟨?_, ?_, ?_⟩
  · intro hstd hb
    refine ⟨roundUp_eval_boundary x u hstd hb, ?_⟩
    rcases isStandardUnit_cases u hstd with h | h | h | h | h | h <;> subst h
    · exact down_noop_year x hb
    · exact down_noop_month x hb
    · have hmod := (isAtBoundary_day_iff x).mp hb
      rw [roundDown_day_offset, hmod]
      omega
    · have hmod := (isAtBoundary_hour_iff x).mp hb
      rw [roundDown_hour_offset, hmod]
      omega
    · have hmod := (isAtBoundary_minute_iff x).mp hb
      rw [roundDown_minute_offset, hmod]
      omega
    · have hmod := (isAtBoundary_second_iff x).mp hb
      rw [roundDown_second_offset, hmod]
      omega
  · intro w hw hwd hns
    obtain ⟨h0, h1, _, _⟩ := dayName_inv u w hw
    have hdn := weekday_down_noop x w h0 h1 hwd hns
    constructor
    · rw [roundUp_dayname_eq x u w hw]
      exact weekday_up_noop_at x u w hw hdn
    · rw [roundDown_dayname_eq x u w hw]
      exact hdn
  · intro hwd hns
    have hdn := weekday_down_noop x 1 (by norm_num) (by norm_num) hwd hns
    constructor
    · rw [roundDown_eval_week]
      exact hdn
    · have he : roundUp x ("week") = addDate (roundDownToWeekday x 1) 0 0 7 := rfl
      rw [he, hdn, addDate_days]

/-- C2 (counterexample to the claim as stated): 2024-01-01T00:00:00 is
exactly a Monday at midnight, yet `roundUp` with unit `week` yields
2024-01-08, not a no-op. -/
theorem C2_week_up_counterexample :
    tWeekday (mkInstant 2024 1 1 0 0 0 0) = 1 ∧
    tNsOfDay (mkInstant 2024 1 1 0 0 0 0) = 0 ∧
    roundUp (mkInstant 2024 1 1 0 0 0 0) ("week") = mkInstant 2024 1 8 0 0 0 0 ∧
    roundUp (mkInstant 2024 1 1 0 0 0 0) ("week") ≠ mkInstant 2024 1 1 0 0 0 0 := by
  decide

/-- C2 witness: the amended theorem applied at concrete boundary instants for
a standard unit, a named weekday, and the week unit. -/
theorem C2_boundary_noop_witness :
    (roundUp (mkInstant 2024 1 15 0 0 0 0) ("day") = mkInstant 2024 1 15 0 0 0 0 ∧
      roundDown (mkInstant 2024 1 15 0 0 0 0) ("day") = mkInstant 2024 1 15 0 0 0 0) ∧
    (roundUp (mkInstant 2024 1 17 0 0 0 0) ("wednesday") =
        mkInstant 2024 1 17 0 0 0 0 ∧
      roundDown (mkInstant 2024 1 17 0 0 0 0) ("wednesday") =
        mkInstant 2024 1 17 0 0 0 0) ∧
    (roundDown (mkInstant 2024 1 1 0 0 0 0) ("week") = mkInstant 2024 1 1 0 0 0 0 ∧
      roundUp (mkInstant 2024 1 1 0 0 0 0) ("week") =
        mkInstant 2024 1 1 0 0 0 0 + 7 * nsPerDay) :=
  ⟨(C2_boundary_noop_amended (mkInstant 2024 1 15 0 0 0 0) ("day")).1
      (by decide) (by decide),
   (C2_boundary_noop_amended (mkInstant 2024 1 17 0 0 0 0) ("wednesday")).2.1 3
      (by decide) (by decide) (by decide),
   (C2_boundary_noop_amended (mkInstant 2024 1 1 0 0 0 0) ("week")).2.2
      (by decide) (by decide)⟩

/-- C5 (amended): `roundDown` is idempotent for every rounding unit
(standard units, `week`, and named weekdays), and `roundUp` is idempotent
for every standard unit and every named weekday.  For the `week` unit
`roundUp` is — contrary to the original claim — not idempotent: it always
adds seven days, even starting from a Monday midnight. -/
theorem C5_idempotence_amended (x : Int) (u : String) :
    ((isStandardUnit u = true ∨ u = "week" ∨ ∃ w : Int, dayNameToWeekday u = some w) →
      roundDown (roundDown x u) u = roundDown x u) ∧
    ((isStandardUnit u = true ∨ ∃ w : Int, dayNameToWeekday u = some w) →
      roundUp (roundUp x u) u = roundUp x u) := by
  constructor
  · rintro (hstd | hwk | ⟨w, hw⟩)
    · rcases isStandardUnit_cases u hstd with h | h | h | h | h | h <;> subst h
      · exact down_noop_year _ (roundDown_year_lands x)
      · exact down_noop_month _ (roundDown_month_lands x)
      · exact down_idem_day x
      · exact down_idem_hour x
      · exact down_idem_minute x
      · exact down_idem_second x
    · subst hwk
      simp only [roundDown_eval_week]
      exact roundDownToWeekday_idem x 1 (by norm_num) (by norm_num)
    · obtain ⟨h0, h1, _, _⟩ := dayName_inv u w hw
      simp only [show ∀ v : Int, roundDown v u = roundDownToWeekday v w from
        fun v => roundDown_dayname_eq v u w hw]
      exact roundDownToWeekday_idem x w h0 h1
  · rintro (hstd | ⟨w, hw⟩)
    · rcases isStandardUnit_cases u hstd with h | h | h | h | h | h <;> subst h
      · exact up_idem_of_lands x ("year") rfl (roundUp_year_lands x)
      · exact up_idem_of_lands x ("month") rfl (roundUp_month_lands x)
      · exact up_idem_of_lands x ("day") rfl (roundUp_day_lands x)
      · exact up_idem_of_lands x ("hour") rfl (roundUp_hour_lands x)
      · exact up_idem_of_lands x ("minute") rfl (roundUp_minute_lands x)
      · exact up_idem_of_lands x ("second") rfl (roundUp_second_lands x)
    · obtain ⟨h0, h1, _, _⟩ := dayName_inv u w hw
      simp only [show ∀ v : Int, roundUp v u = roundDayNameUp v u from
        fun v => roundUp_dayname_eq v u w hw]
      exact roundDayNameUp_idem x u w hw h0 h1

/-- C5 (counterexample to the claim as stated): `roundUp` with unit `week`
is not idempotent — from Monday 2024-01-01T14:00 it gives 2024-01-08, and a
second application gives 2024-01-15. -/
theorem C5_week_up_counterexample :
    roundUp (mkInstant 2024 1 1 14 0 0 0) ("week") = mkInstant 2024 1 8 0 0 0 0 ∧
    roundUp (roundUp (mkInstant 2024 1 1 14 0 0 0) ("week")) ("week") =
      mkInstant 2024 1 15 0 0 0 0 ∧
    roundUp (roundUp (mkInstant 2024 1 1 14 0 0 0) ("week")) ("week") ≠
      roundUp (mkInstant 2024 1 1 14 0 0 0) ("week") := by
  decide

/-- C5 witness: the amended idempotence applied at concrete instants for the
week unit (down), a named weekday (both), and a standard unit (both). -/
theorem C5_idempotence_witness :
    roundDown (roundDown (mkInstant 2024 1 17 14 30 45 0) ("week")) ("week") =
      roundDown (mkInstant 2024 1 17 14 30 45 0) ("week") ∧
    roundUp (roundUp (mkInstant 2024 1 17 14 30 45 0) ("hour")) ("hour") =
      roundUp (mkInstant 2024 1 17 14 30 45 0) ("hour") ∧
    roundUp (roundUp (mkInstant 2024 1 17 14 30 45 0) ("friday")) ("friday") =
      roundUp (mkInstant 2024 1 17 14 30 45 0) ("friday") :=
  ⟨(C5_idempotence_amended (mkInstant 2024 1 17 14 30 45 0) ("week")).1
      (Or.inr (Or.inl rfl)),
   (C5_idempotence_amended (mkInstant 2024 1 17 14 30 45 0) ("hour")).2 (Or.inl rfl),
   (C5_idempotence_amended (mkInstant 2024 1 17 14 30 45 0) ("friday")).2
      (Or.inr ⟨5, rfl⟩)⟩

theorem extract_of_day_plus (N tod : Int) (h0 : 0 ≤ tod) (h1 : tod < nsPerDay) :
    tDays (N * nsPerDay + tod) = N ∧ tNsOfDay (N * nsPerDay + tod) = tod := by
  unfold tDays tNsOfDay nsPerDay at *
  have := ediv_emod_decomp (N * 86400000000000 + tod) 86400000000000 (by norm_num)
  omega

/-- Off-boundary month-up on a concrete day number, for an arbitrary time of
day: first instant of the month after day `N`'s month. -/
theorem roundUp_month_on_day (N tod : Int) (h0 : 0 ≤ tod) (h1 : tod < nsPerDay)
    (hnb : civilDayOf N ≠ 1 ∨ 0 < tod) :
    roundUp (N * nsPerDay + tod) ("month") =
      mkInstant
        (tYear (addDate (mkInstant (civilYearOf N) (civilMonthOf N) 1 0 0 0 0) 0 1 0))
        (tMonth (addDate (mkInstant (civilYearOf N) (civilMonthOf N) 1 0 0 0 0) 0 1 0))
        1 0 0 0 0 := by
  obtain ⟨hd, hns⟩ := extract_of_day_plus N tod h0 h1
  have hday : tDay (N * nsPerDay + tod) = civilDayOf N := by
    show civilDayOf (tDays (N * nsPerDay + tod)) = civilDayOf N
    rw [hd]
  have hmon : tMonth (N * nsPerDay + tod) = civilMonthOf N := by
    show civilMonthOf (tDays (N * nsPerDay + tod)) = civilMonthOf N
    rw [hd]
  have hyr : tYear (N * nsPerDay + tod) = civilYearOf N := by
    show civilYearOf (tDays (N * nsPerDay + tod)) = civilYearOf N
    rw [hd]
  have hb : isAtBoundary (N * nsPerDay + tod) ("month") = false := by
    cases hbb : isAtBoundary (N * nsPerDay + tod) ("month") with
    | false => rfl
    | true =>
      obtain ⟨hd1, hn1⟩ := (isAtBoundary_month_iff _).mp hbb
      rcases hnb with hc | hc
      · rw [hday] at hd1
        exact absurd hd1 hc
      · rw [hns] at hn1
        omega
  rw [roundUp_eval_month _ hb, hyr, hmon]

/-- C4 (amended): from each of the listed 2024 days, `roundUp` by `month`
yields the first instant of the following month for every time of day —
except that at exactly the first instant of a month (Jan 1 or Feb 1 at
00:00:00.000000000) `roundUp` is a boundary no-op and returns the instant
itself.  December 31 rounded up by `year` yields January 1 of the next year
at every time of day.  No overflowed dates arise. -/
theorem C4_month_up_amended :
    (∀ tod : Int, 0 ≤ tod → tod < nsPerDay →
      roundUp (mkInstant 2024 1 31 0 0 0 0 + tod) ("month") =
          mkInstant 2024 2 1 0 0 0 0 ∧
        roundUp (mkInstant 2024 2 29 0 0 0 0 + tod) ("month") =
          mkInstant 2024 3 1 0 0 0 0 ∧
        roundUp (mkInstant 2024 4 30 0 0 0 0 + tod) ("month") =
          mkInstant 2024 5 1 0 0 0 0) ∧
    (∀ tod : Int, 0 < tod → tod < nsPerDay →
      roundUp (mkInstant 2024 1 1 0 0 0 0 + tod) ("month") =
          mkInstant 2024 2 1 0 0 0 0 ∧
        roundUp (mkInstant 2024 2 1 0 0 0 0 + tod) ("month") =
          mkInstant 2024 3 1 0 0 0 0) ∧
    (roundUp (mkInstant 2024 1 1 0 0 0 0) ("month") = mkInstant 2024 1 1 0 0 0 0 ∧
      roundUp (mkInstant 2024 2 1 0 0 0 0) ("month") = mkInstant 2024 2 1 0 0 0 0) ∧
    (∀ tod : Int, 0 ≤ tod → tod < nsPerDay →
      roundUp (mkInstant 2024 12 31 0 0 0 0 + tod) ("year") =
        mkInstant 2025 1 1 0 0 0 0) := by
  refine ⟨?_, ?_, ?_, ?_⟩
  · intro tod h0 h1
    refine ⟨?_, ?_, ?_⟩
    · have hx : mkInstant 2024 1 31 0 0 0 0 = 19753 * nsPerDay := by decide
      rw [hx, roundUp_month_on_day 19753 tod h0 h1 (Or.inl (by decide))]
      decide
    · have hx : mkInstant 2024 2 29 0 0 0 0 = 19782 * nsPerDay := by decide
      rw [hx, roundUp_month_on_day 19782 tod h0 h1 (Or.inl (by decide))]
      decide
    · have hx : mkInstant 2024 4 30 0 0 0 0 = 19843 * nsPerDay := by decide
      rw [hx, roundUp_month_on_day 19843 tod h0 h1 (Or.inl (by decide))]
      decide
  · intro tod h0 h1
    constructor
    · have hx : mkInstant 2024 1 1 0 0 0 0 = 19723 * nsPerDay := by decide
      rw [hx, roundUp_month_on_day 19723 tod (by omega) h1 (Or.inr h0)]
      decide
    · have hx : mkInstant 2024 2 1 0 0 0 0 = 19754 * nsPerDay := by decide
      rw [hx, roundUp_month_on_day 19754 tod (by omega) h1 (Or.inr h0)]
      decide
  · exact ⟨by decide, by decide⟩
  · intro tod h0 h1
    have hx : mkInstant 2024 12 31 0 0 0 0 = 20088 * nsPerDay := by decide
    rw [hx]
    obtain ⟨hd, hns⟩ := extract_of_day_plus 20088 tod h0 h1
    have hyr : tYear (20088 * nsPerDay + tod) = 2024 := by
      show civilYearOf (tDays (20088 * nsPerDay + tod)) = 2024
      rw [hd]
      decide
    have hyd : tYearDay (20088 * nsPerDay + tod) = 366 := by
      unfold tYearDay
      rw [hd, hyr]
      have : daysFromCivil 2024 1 1 = 19723 := by decide
      rw [this]
      decide
    have hb : isAtBoundary (20088 * nsPerDay + tod) ("year") = false := by
      cases hbb : isAtBoundary (20088 * nsPerDay + tod) ("year") with
      | false => rfl
      | true =>
        obtain ⟨hd1, _⟩ := (isAtBoundary_year_iff _).mp hbb
        omega
    rw [roundUp_eval_year _ hb, hyr]
    norm_num

/-- C4 (counterexample to the claim as stated): January 1 at exactly
midnight is already at the month boundary, so `roundUp` by `month` returns
it unchanged instead of the first instant of the following month. -/
theorem C4_midnight_counterexample :
    roundUp (mkInstant 2024 1 1 0 0 0 0) ("month") = mkInstant 2024 1 1 0 0 0 0 ∧
    roundUp (mkInstant 2024 1 1 0 0 0 0) ("month") ≠ mkInstant 2024 2 1 0 0 0 0 := by
  decide

/-- C4 witness: the amended theorem applied at a concrete afternoon time of
day for each part. -/
theorem C4_month_up_witness :
    roundUp (mkInstant 2024 1 31 0 0 0 0 + 52245000000000) ("month") =
      mkInstant 2024 2 1 0 0 0 0 ∧
    roundUp (mkInstant 2024 1 1 0 0 0 0 + 52245000000000) ("month") =
      mkInstant 2024 2 1 0 0 0 0 ∧
    roundUp (mkInstant 2024 12 31 0 0 0 0 + 52245000000000) ("year") =
      mkInstant 2025 1 1 0 0 0 0 :=
  ⟨(C4_month_up_amended.1 52245000000000 (by decide) (by decide)).1,
   (C4_month_up_amended.2.1 52245000000000 (by decide) (by decide)).1,
   C4_month_up_amended.2.2.2 52245000000000 (by decide) (by decide)⟩

/-- C8: `roundNearest` returns the common value when `down` and `up`
coincide; otherwise it compares the candidate against the midpoint
`down + (up − down)/2` and resolves ties (candidate exactly at the
midpoint, i.e. candidate ≤ midpoint) to `down`, else `up`. -/
theorem C8_round_nearest (v : Int) (u : String) :
    roundNearest v u =
      if roundDown v u = roundUp v u then roundDown v u
      else if v ≤ roundDown v u + (roundUp v u - roundDown v u).tdiv 2 then
        roundDown v u
      else roundUp v u := by
  simp only [roundNearest]
  by_cases h1 : roundDown v u = roundUp v u
  · rw [if_pos h1, if_pos h1]
  · rw [if_neg h1, if_neg h1]
    by_cases h2 : v < roundDown v u + (roundUp v u - roundDown v u).tdiv 2 ∨
        v = roundDown v u + (roundUp v u - roundDown v u).tdiv 2
    · rw [if_pos h2, if_pos (by rcases h2 with h | h <;> omega :
        v ≤ roundDown v u + (roundUp v u - roundDown v u).tdiv 2)]
    · rw [if_neg h2, if_neg ?_]
      intro hle
      rcases lt_or_eq_of_le hle with h | h
      · exact h2 (Or.inl h)
      · exact h2 (Or.inr h)

/-! Specification-side formulations of the range-validation conditions
(C3), phrased directly from the claim's tolerance arithmetic. -/

def specMinViolated (env : TimeEnv) (t : Time) (opts : TimeOptions) : Prop :=
  match opts.MinDate with
  | none => False
  | some d =>
    if d.exclusive then ¬(dateLimitValue env d opts + 250000000 < t.Val)
    else t.Val < dateLimitValue env d opts - 250000000

def specMaxViolated (env : TimeEnv) (t : Time) (opts : TimeOptions) : Prop :=
  match opts.MaxDate with
  | none => False
  | some d =>
    if d.exclusive then ¬(t.Val < dateLimitValue env d opts - 250000000)
    else dateLimitValue env d opts + 250000000 < t.Val

/-- C3: `assertTimeRange` returns `ErrMin` iff the configured minimum is
violated, else `ErrMax` iff the configured maximum is violated, else no
error; the minimum is checked first, and each violation is decided with the
fixed 250 ms tolerance exactly as the claim states (inclusive minimum fails
iff candidate < bound − tol, inclusive maximum iff candidate > bound + tol,
exclusive minimum fails unless candidate > bound + tol, exclusive maximum
fails unless candidate < bound − tol). -/
theorem C3_assert_time_range (env : TimeEnv) (t : Time) (opts : TimeOptions) :
    (assertTimeRange env t opts = Errorable.ErrMin ↔ specMinViolated env t opts) ∧
    (assertTimeRange env t opts = Errorable.ErrMax ↔
      ¬specMinViolated env t opts ∧ specMaxViolated env t opts) ∧
    (assertTimeRange env t opts = Errorable.nilErr ↔
      ¬specMinViolated env t opts ∧ ¬specMaxViolated env t opts) := by
  unfold assertTimeRange assertMaxRange specMinViolated specMaxViolated
    validateTimeBoundary validateExclusiveBoundary validateInclusiveBoundary
    TimeComparisonTolerance
  rcases opts.MinDate with _ | d1 <;> rcases opts.MaxDate with _ | d2 <;>
    split_ifs <;> simp_all <;> split_ifs <;> simp_all

/-- Specification-side blank-input outcome (C6), phrased from the claim's
precedence: nullable → present and null; else required → Blank failure;
else keep-blank (`discardBlank` false) → present with a reported Blank
error; else success with `present = false`. -/
def blankOutcomeSpec (t : Time) (opts : TimeOptions) : Time × Errorable :=
  if opts.Null then ({ t with Present := true, Null := true }, Errorable.nilErr)
  else if opts.Required then (t, Errorable.ErrBlank)
  else if opts.DiscardBlank = false then
    ({ t with Present := true }, Errorable.ErrBlank)
  else (t, Errorable.nilErr)

/-- C6: on every blank input — empty string, JSON null, or the zero instant
— the decode outcome on a fresh field state follows the claimed precedence
(nullable, then required, then discard-blank). -/
theorem C6_blank_precedence (env : TimeEnv) (opts : TimeOptions) (path : String) :
    FormValue env zeroTime "" opts = blankOutcomeSpec zeroTime opts ∧
    JSONValue env zeroTime path JSONInput.jnull opts =
      blankOutcomeSpec { zeroTime with Path := path } opts ∧
    JSONValue env zeroTime path (JSONInput.jtime zeroTimeInstant) opts =
      blankOutcomeSpec { zeroTime with Path := path } opts := by
  unfold JSONValue FormValue handleZeroTimeValue handleEmptyValue blankOutcomeSpec
  cases hN : opts.Null <;> cases hR : opts.Required <;> cases hD : opts.DiscardBlank <;>
    simp [hN, hR, hD]

/-! First-match parsing infrastructure shared by C7 and C9. -/

/-- One attempt of the `parseTimeValue` loop: the `"expression"` entry
resolves an expression, any other entry is a layout parse. -/
def tryFormatSpec (env : TimeEnv) (value f : String) : Option Int :=
  if f == "expression" then resolveTimeExpression env.now value
  else env.parseFormat f value

/-- The first format of the list that successfully parses the value. -/
def firstMatchSpec (env : TimeEnv) (value : String) : List String → Option Int
  | [] => none
  | f :: rest =>
    match tryFormatSpec env value f with
    | some v => firstMatchSpec.go v
    | none => firstMatchSpec env value rest
where
  go (v : Int) : Option Int := some v

theorem loop_cons_succ (env : TimeEnv) (t : Time) (value : String)
    (opts : TimeOptions) (f : String) (rest : List String) (v : Int)
    (h : tryFormatSpec env value f = some v) :
    parseTimeValueLoop env t value opts (f :: rest) =
      (applyRounding { t with Val := v, Present := true } opts,
       assertTimeRange env (applyRounding { t with Val := v, Present := true } opts)
         opts) := by
  unfold tryFormatSpec at h
  cases hfe : (f == "expression") with
  | true =>
    rw [hfe] at h
    simp only [if_true] at h
    have hp : parseTimeExpression env t value opts =
        (applyRounding { t with Val := v, Present := true } opts, true) := by
      unfold parseTimeExpression
      rw [h]
    conv_lhs => unfold parseTimeValueLoop
    rw [hfe]
    simp only [if_true, hp]
  | false =>
    rw [hfe] at h
    simp only [Bool.false_eq_true, if_false] at h
    have hp : parseTimeFormat env t value f opts =
        (applyRounding { t with Val := v, Present := true } opts, true) := by
      unfold parseTimeFormat
      rw [h]
    conv_lhs => unfold parseTimeValueLoop
    rw [hfe]
    simp only [Bool.false_eq_true, if_false, hp]

theorem loop_cons_fail (env : TimeEnv) (t : Time) (value : String)
    (opts : TimeOptions) (f : String) (rest : List String)
    (h : tryFormatSpec env value f = none) :
    parseTimeValueLoop env t value opts (f :: rest) =
      parseTimeValueLoop env t value opts rest := by
  unfold tryFormatSpec at h
  cases hfe : (f == "expression") with
  | true =>
    rw [hfe] at h
    simp only [if_true] at h
    have hp : parseTimeExpression env t value opts = (t, false) := by
      unfold parseTimeExpression
      rw [h]
    conv_lhs => unfold parseTimeValueLoop
    rw [hfe]
    simp only [if_true, hp]
  | false =>
    rw [hfe] at h
    simp only [Bool.false_eq_true, if_false] at h
    have hp : parseTimeFormat env t value f opts = (t, false) := by
      unfold parseTimeFormat
      rw [h]
    conv_lhs => unfold parseTimeValueLoop
    rw [hfe]
    simp only [Bool.false_eq_true, if_false, hp]

theorem parseTimeValueLoop_spec (env : TimeEnv) (t : Time) (value : String)
    (opts : TimeOptions) (fmts : List String) :
    (firstMatchSpec env value fmts = none →
      parseTimeValueLoop env t value opts fmts = (t, Errorable.ErrTime)) ∧
    (∀ v, firstMatchSpec env value fmts = some v →
      parseTimeValueLoop env t value opts fmts =
        (applyRounding { t with Val := v, Present := true } opts,
         assertTimeRange env (applyRounding { t with Val := v, Present := true } opts)
           opts)) := by
  induction fmts with
  | nil =>
    refine ⟨fun _ => rfl, fun v h => ?_⟩
    simp [firstMatchSpec] at h
  | cons f rest ih =>
    constructor
    · intro hnone
      unfold firstMatchSpec at hnone
      cases htf : tryFormatSpec env value f with
      | some v =>
        rw [htf] at hnone
        simp [firstMatchSpec.go] at hnone
      | none =>
        rw [htf] at hnone
        rw [loop_cons_fail env t value opts f rest htf]
        exact ih.1 hnone
    · intro v hsome
      unfold firstMatchSpec at hsome
      cases htf : tryFormatSpec env value f with
      | some v2 =>
        rw [htf] at hsome
        simp [firstMatchSpec.go] at hsome
        rw [← hsome]
        exact loop_cons_succ env t value opts f rest v2 htf
      | none =>
        rw [htf] at hsome
        rw [loop_cons_fail env t value opts f rest htf]
        exact ih.2 v hsome

/-- C7: in `parseTimeValue`, the first configured format that successfully
parses (or, for the `"expression"` entry, successfully resolves) the input
determines the decode result — the remaining formats are not consulted
(the result of a successful head format does not depend on the tail) — and
when no configured format matches, the result is the invalid-format error
`ErrTime` with the field state unchanged. -/
theorem C7_first_format_wins (env : TimeEnv) (t : Time) (value : String)
    (opts : TimeOptions) :
    (∀ f : String, ∀ rest : List String, ∀ v : Int,
      tryFormatSpec env value f = some v →
      parseTimeValueLoop env t value opts (f :: rest) =
        (applyRounding { t with Val := v, Present := true } opts,
         assertTimeRange env (applyRounding { t with Val := v, Present := true } opts)
           opts)) ∧
    (∀ v : Int, firstMatchSpec env value opts.Format = some v →
      parseTimeValue env t value opts =
        (applyRounding { t with Val := v, Present := true } opts,
         assertTimeRange env (applyRounding { t with Val := v, Present := true } opts)
           opts)) ∧
    (firstMatchSpec env value opts.Format = none →
      parseTimeValue env t value opts = (t, Errorable.ErrTime)) :=
  ⟨fun f rest v h => loop_cons_succ env t value opts f rest v h,
   fun v h => (parseTimeValueLoop_spec env t value opts opts.Format).2 v h,
   fun h => (parseTimeValueLoop_spec env t value opts opts.Format).1 h⟩

/-- Concrete environment used by the closed witnesses: a frozen wall clock
and a layout parser that recognises one RFC3339 timestamp. -/
def sampleEnv : TimeEnv :=
  { now := mkInstant 2024 6 1 12 0 0 0,
    parseFormat := fun layout value =>
      if layout == "2006-01-02T15:04:05Z07:00" && value == "2024-01-15T14:30:45Z"
      then some (mkInstant 2024 1 15 14 30 45 0)
      else none }

def sampleOpts : TimeOptions :=
  { Required := false, DiscardBlank := true, Null := false,
    Format := ["banana", "2006-01-02T15:04:05Z07:00", "expression"],
    MinDate := none, MaxDate := none, Round := some ⟨"day", "down"⟩ }

/-- C7 witness: with a failing first format, the second format wins and the
tail is irrelevant; an unparseable value gives `ErrTime` unchanged. -/
theorem C7_first_format_wins_witness :
    parseTimeValue sampleEnv zeroTime "2024-01-15T14:30:45Z" sampleOpts =
      ({ zeroTime with Val := mkInstant 2024 1 15 0 0 0 0, Present := true },
       Errorable.nilErr) ∧
    parseTimeValue sampleEnv zeroTime "wat" sampleOpts =
      (zeroTime, Errorable.ErrTime) := by
  constructor
  · have h := (C7_first_format_wins sampleEnv zeroTime "2024-01-15T14:30:45Z"
      sampleOpts).2.1 (mkInstant 2024 1 15 14 30 45 0) (by decide)
    rw [h]
    decide
  · exact (C7_first_format_wins sampleEnv zeroTime "wat" sampleOpts).2.2 (by decide)

theorem applyRounding_fields (t : Time) (opts : TimeOptions) :
    (applyRounding t opts).Present = t.Present ∧
    (applyRounding t opts).Null = t.Null ∧
    (applyRounding t opts).Path = t.Path := by
  unfold applyRounding
  cases opts.Round with
  | none => exact ⟨rfl, rfl, rfl⟩
  | some rc => dsimp only; split_ifs <;> exact ⟨rfl, rfl, rfl⟩

theorem assertTimeRange_cases (env : TimeEnv) (t : Time) (opts : TimeOptions) :
    assertTimeRange env t opts = Errorable.ErrMin ∨
    assertTimeRange env t opts = Errorable.ErrMax ∨
    assertTimeRange env t opts = Errorable.nilErr := by
  unfold assertTimeRange assertMaxRange
  rcases opts.MinDate with _ | d1 <;> rcases opts.MaxDate with _ | d2 <;>
    dsimp only <;> first | (split_ifs <;> simp) | simp

/-- C9: when a value-bearing decode (from the fresh field state) fails the
range check with `ErrMin` or `ErrMax`, the field is left populated —
`Present = true`, `Null = false`, and `Val` is the parsed-and-rounded
instant of the first matching format; when no format matches (`ErrTime`),
the field state is unchanged. -/
theorem C9_state_after_error (env : TimeEnv) (value : String) (opts : TimeOptions)
    (t1 : Time) (e : Errorable)
    (hpe : parseTimeValue env zeroTime value opts = (t1, e)) :
    ((e = Errorable.ErrMin ∨ e = Errorable.ErrMax) →
      t1.Present = true ∧ t1.Null = false ∧
      ∃ v : Int, firstMatchSpec env value opts.Format = some v ∧
        t1.Val = (applyRounding { zeroTime with Val := v, Present := true } opts).Val) ∧
    (e = Errorable.ErrTime → t1 = zeroTime) := by
  cases hfm : firstMatchSpec env value opts.Format with
  | none =>
    have heq := (parseTimeValueLoop_spec env zeroTime value opts opts.Format).1 hfm
    unfold parseTimeValue at hpe
    rw [hpe, Prod.mk.injEq] at heq
    constructor
    · intro hor
      rcases hor with h | h <;> rw [h] at heq <;> simp_all
    · intro _
      exact heq.1
  | some v =>
    have heq := (parseTimeValueLoop_spec env zeroTime value opts opts.Format).2 v hfm
    unfold parseTimeValue at hpe
    rw [hpe, Prod.mk.injEq] at heq
    obtain ⟨ht, he⟩ := heq
    constructor
    · intro _
      obtain ⟨hP, hN, _⟩ :=
        applyRounding_fields { zeroTime with Val := v, Present := true } opts
      refine ⟨?_, ?_, v, rfl, ?_⟩
      · rw [ht]; exact hP.trans rfl
      · rw [ht]; exact hN.trans rfl
      · rw [ht]
    · intro hET
      exfalso
      rw [hET] at he
      rcases assertTimeRange_cases env
          (applyRounding { zeroTime with Val := v, Present := true } opts) opts with
        h | h | h <;> rw [h] at he <;> exact absurd he (by simp)

def opts9 : TimeOptions :=
  { Required := false, DiscardBlank := true, Null := false,
    Format := ["2006-01-02T15:04:05Z07:00", "expression"],
    MinDate := some { value := mkInstant 2030 1 1 0 0 0 0, isAbsolute := true,
                      exclusive := false, raw := "2030-01-01T00:00:00Z" },
    MaxDate := none, Round := none }

/-- C9 witness: a parse that violates the minimum leaves the field
populated with the parsed instant; an unparseable value leaves the fresh
state untouched. -/
theorem C9_state_after_error_witness :
    (parseTimeValue sampleEnv zeroTime "2024-01-15T14:30:45Z" opts9).2 =
      Errorable.ErrMin ∧
    (parseTimeValue sampleEnv zeroTime "2024-01-15T14:30:45Z" opts9).1.Present =
      true ∧
    parseTimeValue sampleEnv zeroTime "wat" opts9 = (zeroTime, Errorable.ErrTime) := by
  refine ⟨by decide, ?_, ?_⟩
  · exact ((C9_state_after_error sampleEnv "2024-01-15T14:30:45Z" opts9 _ _ rfl).1
      (Or.inl (by decide))).1
  · have h := (C9_state_after_error sampleEnv "wat" opts9 _ _ rfl).2 (by decide)
    exact Prod.ext h (by decide)

/-- C10: for a round tag that splits (after lower-casing) into a unit and a
direction token, an unrecognised direction silently falls back to `down`:
if the unit normalises to a day name the config is that day name with
direction `down`, and if it is a traditional unit the config is that unit
with direction `down` — rounding is not disabled and no error is raised. -/
theorem C10_invalid_direction_defaults_down (roundTag u d : String)
    (hsplit : goSplit (toLowerStr roundTag) ':' = [u, d])
    (hdir : validDirections (trimSpaceStr d) = none) :
    (∀ nd : String, normalizeDayName (trimSpaceStr u) = some nd →
      parseRoundConfig roundTag = some ⟨nd, "down"⟩) ∧
    (∀ vu : String, normalizeDayName (trimSpaceStr u) = none →
      validUnits (trimSpaceStr u) = some vu →
      parseRoundConfig roundTag = some ⟨vu, "down"⟩) := by
  have hcore : parseRoundConfig roundTag =
      (match normalizeDayName (trimSpaceStr u) with
       | some normalizedDay => some ⟨normalizedDay, "down"⟩
       | none =>
         match validUnits (trimSpaceStr u) with
         | some validUnit => some ⟨validUnit, "down"⟩
         | none => none) := by
    simp only [parseRoundConfig, hsplit, List.getD_cons_zero, List.getD_cons_succ,
      List.length_cons, List.length_nil, hdir]
    norm_num
  constructor
  · intro nd hnd
    rw [hcore, hnd]
  · intro vu hnone hvu
    rw [hcore, hnone, hvu]

/-- C10 witness: `"DAY:SIDEWAYS"` (note the case-insensitive matching)
keeps rounding enabled with unit `day` and direction `down`. -/
theorem C10_invalid_direction_defaults_down_witness :
    goSplit (toLowerStr "DAY:SIDEWAYS") ':' = ["day", "sideways"] ∧
    validDirections (trimSpaceStr "sideways") = none ∧
    parseRoundConfig "DAY:SIDEWAYS" = some ⟨"day", "down"⟩ := by
  refine ⟨by decide, by decide, ?_⟩
  exact (C10_invalid_direction_defaults_down "DAY:SIDEWAYS" "day" "sideways"
    (by decide) (by decide)).2 "day" (by decide) (by decide)

/-- The struct tag of the C1 failing input: a literal absolute minimum
bound together with day rounding. -/
def c1Tag : StructTag :=
  { meta_required := "", meta_discard_blank := "", meta_null := "",
    meta_format := "", meta_min := "2024-01-15T14:30:45Z", meta_max := "",
    meta_round := "day" }

/-- The date limit the code actually stores for `c1Tag`. -/
def c1Limit : DateLimit :=
  { value := mkInstant 2024 1 15 14 30 45 0, isAbsolute := true,
    exclusive := false, raw := "2024-01-15T14:30:45Z" }

/-- C1 (refuted — code bug): `ParseOptions` parses `meta_round` only after
both date limits are built, so a literal (absolute) bound is stored at its
unrounded parsed instant (14:30:45), not at the rounding of that instant
(midnight) as the claim requires, and `dateLimitValue` returns the stored
value unchanged for absolute limits — the literal bound is not
rounding-consistent with parsed field values. -/
theorem C1_literal_bound_unrounded :
    (ParseOptions sampleEnv c1Tag).Round = some ⟨"day", "down"⟩ ∧
    ((ParseOptions sampleEnv c1Tag).MinDate.map (fun d => (d.value, d.isAbsolute))) =
      some (mkInstant 2024 1 15 14 30 45 0, true) ∧
    (∀ d : DateLimit, (ParseOptions sampleEnv c1Tag).MinDate = some d →
      dateLimitValue sampleEnv d (ParseOptions sampleEnv c1Tag) = d.value) ∧
    mkInstant 2024 1 15 14 30 45 0 ≠
      roundDown (mkInstant 2024 1 15 14 30 45 0) "day" := by
  refine ⟨by decide, by decide, ?_, by decide⟩
  intro d hd
  have hval : d.isAbsolute = true := by
    have h1 : some d = some c1Limit := by rw [← hd]; decide
    injection h1 with h2
    rw [h2]
    rfl
  unfold dateLimitValue
  rw [hval]
  simp

end MetaTime
